import Mathlib

/-!
# Verification of the xHook ELF hooking core (`src/libxhook/jni/xh_elf.c`)

Shallow embedding of the xh_elf.c PLT/GOT hooking engine, monomorphized to
the `__aarch64__` / `__LP64__` build (the 64-bit configuration of the two the
source supports): `ElfW(Addr)`, `size_t`, `ssize_t` are 64-bit and modelled as
`Nat` with explicit `% 2^64` where C wraparound matters; `uint32_t` values are
`Nat` with `% 2^32` where it matters.  Machine pointers are byte addresses
(`Nat`).  Fallible C functions returning an `int` status are modelled as
returning that status as a `Nat` (`0` = success) together with their outputs;
C functions that can crash (null-pointer dereference) or loop forever return
`Option`, with `none` modelling the undefined/non-terminating execution.

The loaded ELF image is read-only memory.  The C code reads it by casting
pointers to typed views; we model each typed read by its own accessor
(`Mem.byte`, `Mem.word32`, `Mem.phdr`, ...), which is the standard shallow
embedding of C type-punning over a well-formed image.  Writable GOT slots and
page protections live in a separate `HookSt`, reflecting that the relocation
tables and the GOT do not overlap in a well-formed image.
-/

set_option autoImplicit false

namespace XhElfSpec

/-- Width of `size_t` / `ElfW(Addr)` in the modelled (64-bit) build. -/
def WORD_MOD : Nat := 2 ^ 64

/-- `sizeof(ElfW(Rela))` on LP64. -/
def SIZEOF_RELA : Nat := 24

/-- `sizeof(ElfW(Rel))` on LP64. -/
def SIZEOF_REL : Nat := 16

/-- `sizeof(ElfW(Dyn))` on LP64. -/
def SIZEOF_DYN : Nat := 16

/-- `sizeof(ElfW(Phdr))` on LP64. -/
def SIZEOF_PHDR : Nat := 56

/-- `sizeof(ElfW(Sym))` on LP64. -/
def SIZEOF_SYM : Nat := 24

/-!
Error statuses.  `xh_errno.h` is not part of the given sources; the spec (§7)
fixes only the error taxonomy, so we model the codes as distinct nonzero
naturals.  All claims depend only on `0` vs a particular nonzero code.
-/

def XH_ERRNO_FORMAT : Nat := 1
def XH_ERRNO_NOTFND : Nat := 2
def XH_ERRNO_INVAL : Nat := 3
def XH_ERRNO_ELFINIT : Nat := 4
def XH_ERRNO_UNKNOWN : Nat := 5

/-!
## SLEB128 decoder (`xh_elf_sleb128_decoder_t`)

The decoder state in C is a pair of pointers `[cur, end)` into the byte
stream; we model the state as the list of bytes still to be read.
`xh_elf_sleb128_decoder_next` returns `XH_ERRNO_FORMAT` when the stream ends
mid-number; we model its result as `Option (value, rest)`, `none` being the
`XH_ERRNO_FORMAT` exit (the only failure in the C function).
-/

/-- The `do { ... } while(byte & 128)` loop of `xh_elf_sleb128_decoder_next`:
accumulates `value |= (byte & 127) << shift`, `shift += 7`, and on the final
byte (continuation bit clear) returns the accumulator, the shift and that
byte.  `value` is a C `size_t`, hence the `% 2^64` on each accumulation. -/
def sleb128_loop (value shift : Nat) : List Nat → Option (Nat × Nat × Nat × List Nat)
  | [] => none
  | byte :: rest =>
    let value := (value ||| ((byte &&& 127) <<< shift)) % WORD_MOD
    let shift := shift + 7
    if byte &&& 128 ≠ 0 then sleb128_loop value shift rest
    else some (value, shift, byte, rest)

/-- `xh_elf_sleb128_decoder_next`: run the byte loop, then sign-extend when
`shift < 64` and bit 6 of the final byte is set (`value |= -((size_t)1 << shift)`;
`-(1 << shift)` as a `size_t` is `2^64 - 2^shift`). -/
def xh_elf_sleb128_decoder_next (cur : List Nat) : Option (Nat × List Nat) :=
  match sleb128_loop 0 0 cur with
  | none => none
  | some (value, shift, byte, rest) =>
    let value :=
      if shift < 64 ∧ byte &&& 64 ≠ 0 then (value ||| (WORD_MOD - 2 ^ shift)) % WORD_MOD
      else value
    some (value, rest)

/-- Two's-complement reading of a 64-bit `size_t` as a signed integer. -/
def toSigned (v : Nat) : Int :=
  if v < 2 ^ 63 then (v : Int) else (v : Int) - (WORD_MOD : Int)

/-!
## Plain relocation iterator (`xh_elf_plain_reloc_iterator_t`)

State: `cur`, `end` byte addresses and the `is_use_rela` flag.  `next` does no
memory access at all: it only advances `cur` and returns a pointer, so the
embedding is purely arithmetic on addresses.
-/

structure PlainIter where
  cur : Nat
  ending : Nat
  is_use_rela : Bool
  deriving Repr, DecidableEq

/-- `xh_elf_plain_reloc_iterator_init`. -/
def xh_elf_plain_reloc_iterator_init (rel rel_sz : Nat) (is_use_rela : Bool) : PlainIter :=
  { cur := rel, ending := rel + rel_sz, is_use_rela := is_use_rela }

/-- `xh_elf_plain_reloc_iterator_next`.  Note the source increments `cur`
*before* returning it: the returned pointer is the incremented `cur`, not the
record the cursor pointed at when the call began. -/
def xh_elf_plain_reloc_iterator_next (self : PlainIter) : Option (Nat × PlainIter) :=
  if self.cur ≥ self.ending then none
  else
    let cur := self.cur + (if self.is_use_rela then SIZEOF_RELA else SIZEOF_REL)
    some (cur, { self with cur := cur })

theorem plain_next_measure {s : PlainIter} {p : Nat} {s' : PlainIter}
    (h : xh_elf_plain_reloc_iterator_next s = some (p, s')) :
    s.ending - s'.cur < s.ending - s.cur ∧ s'.ending = s.ending := by
  unfold xh_elf_plain_reloc_iterator_next at h
  split at h
  · exact absurd h (by simp)
  · next hlt =>
    simp only [Option.some.injEq, Prod.mk.injEq] at h
    obtain ⟨-, rfl⟩ := h
    refine ⟨?_, rfl⟩
    simp only [SIZEOF_RELA, SIZEOF_REL]
    push_neg at hlt
    split <;> omega

/-- The full sequence of pointers the plain iterator yields from a given
state (repeated `next` until it returns `NULL`). -/
def plainYields (s : PlainIter) : List Nat :=
  match h : xh_elf_plain_reloc_iterator_next s with
  | none => []
  | some (p, s') =>
    have := plain_next_measure h
    p :: plainYields s'
termination_by s.ending - s.cur
decreasing_by exact (by omega : s'.ending - s'.cur < s.ending - s.cur)

/-!
## Relocation records

`Elf64_Rel` is `{r_offset, r_info}`; `Elf64_Rela` adds `r_addend`.  The hook
engine receives records through a `void *rel_common` that is either a pointer
into the image (plain iterator) or a pointer to the packed iterator's
synthesized `rela`/`rel` member; `RelCommon` models these three shapes.
-/

structure Rel where
  r_offset : Nat
  r_info : Nat
  deriving Repr, DecidableEq

structure Rela where
  r_offset : Nat
  r_info : Nat
  r_addend : Nat
  deriving Repr, DecidableEq

inductive RelCommon where
  /-- a pointer into the image, as yielded by the plain iterator -/
  | addr (a : Nat)
  /-- the packed iterator's synthesized `ElfW(Rela)` record -/
  | rela (r : Rela)
  /-- the packed iterator's synthesized `ElfW(Rel)` record -/
  | rel (r : Rel)
  deriving Repr, DecidableEq

/-!
## Packed (APS2) relocation iterator (`xh_elf_packed_reloc_iterator_t`)
-/

def RELOCATION_GROUPED_BY_INFO_FLAG : Nat := 1
def RELOCATION_GROUPED_BY_OFFSET_DELTA_FLAG : Nat := 2
def RELOCATION_GROUPED_BY_ADDEND_FLAG : Nat := 4
def RELOCATION_GROUP_HAS_ADDEND_FLAG : Nat := 8

structure PackedIter where
  decoder : List Nat
  relocation_count : Nat
  group_size : Nat
  group_flags : Nat
  group_r_offset_delta : Nat
  relocation_index : Nat
  relocation_group_index : Nat
  r_offset : Nat
  r_info : Nat
  r_addend : Nat
  is_use_rela : Bool
  deriving Repr, DecidableEq

/-- `xh_elf_packed_reloc_iterator_init`: zero the struct (`memset`), attach
the SLEB128 decoder to the byte region, then decode `relocation_count` and the
initial `r_offset`.  The status is returned together with the state because
`xh_elf_hook` ignores the status and iterates on whatever state resulted. -/
def xh_elf_packed_reloc_iterator_init (bytes : List Nat) (is_use_rela : Bool) :
    Nat × PackedIter :=
  let self : PackedIter :=
    { decoder := bytes, relocation_count := 0, group_size := 0, group_flags := 0
      group_r_offset_delta := 0, relocation_index := 0, relocation_group_index := 0
      r_offset := 0, r_info := 0, r_addend := 0, is_use_rela := is_use_rela }
  match xh_elf_sleb128_decoder_next self.decoder with
  | none => (XH_ERRNO_FORMAT, self)
  | some (cnt, rest) =>
    let self := { self with relocation_count := cnt, decoder := rest }
    match xh_elf_sleb128_decoder_next self.decoder with
    | none => (XH_ERRNO_FORMAT, self)
    | some (off, rest) => (0, { self with r_offset := off, decoder := rest })

/-!
`xh_elf_packed_reloc_iterator_read_group_fields` and
`xh_elf_packed_reloc_iterator_next` are sequences of conditional SLEB128
reads with an early `return` on every failure; we render each conditional
read as its own definition (suffix `_part`), chained in source order, so the
early returns stay visible and the bookkeeping lemmas stay small.
-/

/-- Tail of `xh_elf_packed_reloc_iterator_read_group_fields`: the
`RELOCATION_GROUP_HAS_ADDEND_FLAG` / `RELOCATION_GROUPED_BY_ADDEND_FLAG`
handling, then `relocation_group_index = 0` (skipped by the early error
returns, as in the source). -/
def read_group_addend_part (self : PackedIter) : Nat × PackedIter :=
  if self.group_flags &&& RELOCATION_GROUP_HAS_ADDEND_FLAG ≠ 0 ∧
     self.group_flags &&& RELOCATION_GROUPED_BY_ADDEND_FLAG ≠ 0 then
    if self.is_use_rela = false then (XH_ERRNO_FORMAT, self)
    else
      match xh_elf_sleb128_decoder_next self.decoder with
      | none => (XH_ERRNO_FORMAT, self)
      | some (v, rest) =>
        (0, { self with
              r_addend := (self.r_addend + v) % WORD_MOD
              decoder := rest
              relocation_group_index := 0 })
  else if self.group_flags &&& RELOCATION_GROUP_HAS_ADDEND_FLAG = 0 then
    (0, { self with r_addend := 0, relocation_group_index := 0 })
  else
    (0, { self with relocation_group_index := 0 })

/-- `RELOCATION_GROUPED_BY_INFO_FLAG` read of
`xh_elf_packed_reloc_iterator_read_group_fields`. -/
def read_group_info_part (self : PackedIter) : Nat × PackedIter :=
  if self.group_flags &&& RELOCATION_GROUPED_BY_INFO_FLAG ≠ 0 then
    match xh_elf_sleb128_decoder_next self.decoder with
    | none => (XH_ERRNO_FORMAT, self)
    | some (i, rest) => read_group_addend_part { self with r_info := i, decoder := rest }
  else read_group_addend_part self

/-- `xh_elf_packed_reloc_iterator_read_group_fields`: read `group_size` and
`group_flags`, then the optional constant `r_offset` delta, then the parts
above. -/
def xh_elf_packed_reloc_iterator_read_group_fields (self : PackedIter) :
    Nat × PackedIter :=
  match xh_elf_sleb128_decoder_next self.decoder with
  | none => (XH_ERRNO_FORMAT, self)
  | some (gsz, rest) =>
    let self := { self with group_size := gsz, decoder := rest }
    match xh_elf_sleb128_decoder_next self.decoder with
    | none => (XH_ERRNO_FORMAT, self)
    | some (gfl, rest) =>
      let self := { self with group_flags := gfl, decoder := rest }
      if self.group_flags &&& RELOCATION_GROUPED_BY_OFFSET_DELTA_FLAG ≠ 0 then
        match xh_elf_sleb128_decoder_next self.decoder with
        | none => (XH_ERRNO_FORMAT, self)
        | some (d, rest) =>
          read_group_info_part { self with group_r_offset_delta := d, decoder := rest }
      else read_group_info_part self

/-- Per-entry `r_addend` accumulation of `xh_elf_packed_reloc_iterator_next`
(only for RELA regions whose group has addends not grouped). -/
def packed_next_addend_part (self : PackedIter) : Option PackedIter :=
  if self.is_use_rela ∧
     self.group_flags &&& RELOCATION_GROUP_HAS_ADDEND_FLAG ≠ 0 ∧
     self.group_flags &&& RELOCATION_GROUPED_BY_ADDEND_FLAG = 0 then
    match xh_elf_sleb128_decoder_next self.decoder with
    | none => none
    | some (v, rest) =>
      some { self with r_addend := (self.r_addend + v) % WORD_MOD, decoder := rest }
  else some self

/-- Per-entry `r_info` read of `xh_elf_packed_reloc_iterator_next` (absent
when `RELOCATION_GROUPED_BY_INFO_FLAG` is set). -/
def packed_next_info_part (self : PackedIter) : Option PackedIter :=
  if self.group_flags &&& RELOCATION_GROUPED_BY_INFO_FLAG = 0 then
    match xh_elf_sleb128_decoder_next self.decoder with
    | none => none
    | some (i, rest) => packed_next_addend_part { self with r_info := i, decoder := rest }
  else packed_next_addend_part self

/-- Per-entry `r_offset` advance of `xh_elf_packed_reloc_iterator_next`. -/
def packed_next_offset_part (self : PackedIter) : Option PackedIter :=
  if self.group_flags &&& RELOCATION_GROUPED_BY_OFFSET_DELTA_FLAG ≠ 0 then
    packed_next_info_part
      { self with r_offset := (self.r_offset + self.group_r_offset_delta) % WORD_MOD }
  else
    match xh_elf_sleb128_decoder_next self.decoder with
    | none => none
    | some (v, rest) =>
      packed_next_info_part
        { self with r_offset := (self.r_offset + v) % WORD_MOD, decoder := rest }

/-- Body of `xh_elf_packed_reloc_iterator_next` between the count check and
the final record synthesis: optional group-header refresh, then the per-entry
parts above. -/
def packed_next_core (self : PackedIter) : Option PackedIter :=
  if self.relocation_group_index = self.group_size then
    if (xh_elf_packed_reloc_iterator_read_group_fields self).1 ≠ 0 then none
    else packed_next_offset_part (xh_elf_packed_reloc_iterator_read_group_fields self).2
  else packed_next_offset_part self

/-- `xh_elf_packed_reloc_iterator_next`.  Returns `NULL` (`none`) at the end
of the stream and on every decode/format error. -/
def xh_elf_packed_reloc_iterator_next (self : PackedIter) :
    Option (RelCommon × PackedIter) :=
  if self.relocation_index ≥ self.relocation_count then none
  else
    match packed_next_core self with
    | none => none
    | some self =>
      let self := { self with
        relocation_index := self.relocation_index + 1
        relocation_group_index := self.relocation_group_index + 1 }
      if self.is_use_rela then
        some (RelCommon.rela ⟨self.r_offset, self.r_info, self.r_addend⟩, self)
      else
        some (RelCommon.rel ⟨self.r_offset, self.r_info⟩, self)

theorem read_group_addend_part_counts (s : PackedIter) :
    (read_group_addend_part s).2.relocation_index = s.relocation_index ∧
      (read_group_addend_part s).2.relocation_count = s.relocation_count := by
  unfold read_group_addend_part
  repeat' split
  all_goals exact ⟨rfl, rfl⟩

theorem read_group_info_part_counts (s : PackedIter) :
    (read_group_info_part s).2.relocation_index = s.relocation_index ∧
      (read_group_info_part s).2.relocation_count = s.relocation_count := by
  unfold read_group_info_part
  repeat' split
  all_goals
    first
    | exact ⟨rfl, rfl⟩
    | (refine ⟨(read_group_addend_part_counts _).1.trans ?_,
          (read_group_addend_part_counts _).2.trans ?_⟩ <;> rfl)

theorem read_group_fields_counts (s : PackedIter) :
    (xh_elf_packed_reloc_iterator_read_group_fields s).2.relocation_index =
        s.relocation_index ∧
      (xh_elf_packed_reloc_iterator_read_group_fields s).2.relocation_count =
        s.relocation_count := by
  unfold xh_elf_packed_reloc_iterator_read_group_fields
  repeat' (first | split | (simp only []))
  all_goals
    first
    | trivial
    | exact ⟨rfl, rfl⟩
    | (refine ⟨(read_group_info_part_counts _).1.trans ?_,
          (read_group_info_part_counts _).2.trans ?_⟩ <;> rfl)

theorem packed_next_addend_part_counts (s : PackedIter) :
    ∀ t, packed_next_addend_part s = some t →
      t.relocation_index = s.relocation_index ∧
        t.relocation_count = s.relocation_count := by
  intro t ht
  unfold packed_next_addend_part at ht
  repeat' split at ht
  all_goals cases ht
  all_goals exact ⟨rfl, rfl⟩

theorem packed_next_info_part_counts (s : PackedIter) :
    ∀ t, packed_next_info_part s = some t →
      t.relocation_index = s.relocation_index ∧
        t.relocation_count = s.relocation_count := by
  intro t ht
  unfold packed_next_info_part at ht
  repeat' split at ht
  all_goals
    first
    | cases ht
    | (have h2 := packed_next_addend_part_counts _ t ht
       exact ⟨h2.1, h2.2⟩)

theorem packed_next_offset_part_counts (s : PackedIter) :
    ∀ t, packed_next_offset_part s = some t →
      t.relocation_index = s.relocation_index ∧
        t.relocation_count = s.relocation_count := by
  intro t ht
  unfold packed_next_offset_part at ht
  repeat' split at ht
  all_goals
    first
    | cases ht
    | (have h2 := packed_next_info_part_counts _ t ht
       exact ⟨h2.1, h2.2⟩)

theorem packed_next_core_counts (s : PackedIter) :
    ∀ t, packed_next_core s = some t →
      t.relocation_index = s.relocation_index ∧
        t.relocation_count = s.relocation_count := by
  intro t ht
  have hg := read_group_fields_counts s
  unfold packed_next_core at ht
  repeat' split at ht
  all_goals
    first
    | cases ht
    | (have h2 := packed_next_offset_part_counts _ t ht
       exact ⟨h2.1.trans hg.1, h2.2.trans hg.2⟩)
    | (have h2 := packed_next_offset_part_counts _ t ht
       exact ⟨h2.1, h2.2⟩)

theorem packed_next_measure {s : PackedIter} {rc : RelCommon} {s' : PackedIter}
    (h : xh_elf_packed_reloc_iterator_next s = some (rc, s')) :
    s'.relocation_index = s.relocation_index + 1 ∧
      s'.relocation_count = s.relocation_count ∧
      s.relocation_index < s.relocation_count := by
  unfold xh_elf_packed_reloc_iterator_next at h
  split at h
  · exact absurd h (by simp)
  · next hlt =>
    push_neg at hlt
    split at h
    · exact absurd h (by simp)
    · next t hcore =>
      have hc := packed_next_core_counts s t hcore
      simp only [] at h
      split at h <;>
        (simp only [Option.some.injEq, Prod.mk.injEq] at h
         obtain ⟨-, rfl⟩ := h
         exact ⟨by simp [hc.1], by simp [hc.2], hlt⟩)

/-- The full sequence of records the packed iterator yields (repeated `next`
until it returns `NULL`). -/
def packedYields (s : PackedIter) : List RelCommon :=
  match h : xh_elf_packed_reloc_iterator_next s with
  | none => []
  | some (rc, s') =>
    have := packed_next_measure h
    rc :: packedYields s'
termination_by s.relocation_count - s.relocation_index
decreasing_by omega

/-- Unfolding equation for `plainYields`. -/
theorem plainYields_eq (s : PlainIter) :
    plainYields s =
      match xh_elf_plain_reloc_iterator_next s with
      | none => []
      | some (p, s') => p :: plainYields s' := by
  conv_lhs => rw [plainYields]
  split <;> (rename_i heq; simp [heq])

/-- Unfolding equation for `packedYields`. -/
theorem packedYields_eq (s : PackedIter) :
    packedYields s =
      match xh_elf_packed_reloc_iterator_next s with
      | none => []
      | some (rc, s') => rc :: packedYields s' := by
  conv_lhs => rw [packedYields]
  split <;> (rename_i heq; simp [heq])

/-- C1 (code bug): on a plain REL region of two records at address 4096 with
byte size 32 (stride `sizeof(ElfW(Rel)) = 16`), the iterator yields the
pointers 4112 and 4128 — i.e. `rel + (k+1)*stride`, not `rel + k*stride` as
the spec states: the first record at 4096 is never yielded, and the final
yield 4128 = `rel + rel_sz` is one past the region.  The cause is that
`xh_elf_plain_reloc_iterator_next` increments `cur` before returning it. -/
theorem C1_plain_reloc_iterator_off_by_one :
    plainYields (xh_elf_plain_reloc_iterator_init 4096 32 false) = [4112, 4128] := by
  rw [plainYields_eq]
  norm_num [xh_elf_plain_reloc_iterator_next, xh_elf_plain_reloc_iterator_init, SIZEOF_REL]
  rw [plainYields_eq]
  norm_num [xh_elf_plain_reloc_iterator_next, SIZEOF_REL]
  rw [plainYields_eq]
  norm_num [xh_elf_plain_reloc_iterator_next, SIZEOF_REL]

/-- Helper for C7: while the continuation bit stays set, the SLEB128 byte
loop never produces a value, whatever the accumulator and shift. -/
theorem sleb128_loop_all_continuation (bs : List Nat)
    (h : ∀ b ∈ bs, b &&& 128 ≠ 0) :
    ∀ value shift, sleb128_loop value shift bs = none := by
  induction bs with
  | nil => intro value shift; rfl
  | cons b rest ih =>
    intro value shift
    have hb : b &&& 128 ≠ 0 := h b (List.mem_cons_self b rest)
    simp only [sleb128_loop, if_pos hb]
    exact ih (fun x hx => h x (List.mem_cons_of_mem b hx)) _ _

/-- C7: the SLEB128 decoder decodes the single byte `0x7F` to the `size_t`
value `2^64 - 1` (two's-complement `-1`), decodes `0x80 0x01` to `128`, and
fails (`XH_ERRNO_FORMAT`, modelled `none`) on every stream that ends before a
byte with the continuation bit clear. -/
theorem C7_sleb128_decoder :
    (xh_elf_sleb128_decoder_next [0x7f] = some (WORD_MOD - 1, []) ∧
        toSigned (WORD_MOD - 1) = -1) ∧
      xh_elf_sleb128_decoder_next [0x80, 0x01] = some (128, []) ∧
      ∀ bs : List Nat, (∀ b ∈ bs, b &&& 128 ≠ 0) →
        xh_elf_sleb128_decoder_next bs = none := by
  refine ⟨⟨by decide, by decide⟩, by decide, ?_⟩
  intro bs h
  unfold xh_elf_sleb128_decoder_next
  rw [sleb128_loop_all_continuation bs h 0 0]

/-- Witness for C7: a two-byte stream consisting only of continuation bytes
makes `next` fail. -/
theorem C7_sleb128_decoder_witness :
    xh_elf_sleb128_decoder_next [0x80, 0x80] = none :=
  C7_sleb128_decoder.2.2 [0x80, 0x80] (by decide)

/-- C5 (counterexample): a packed REL stream (`is_use_rela = false`) whose
single group has `group_flags = RELOCATION_GROUP_HAS_ADDEND_FLAG` (8, without
`RELOCATION_GROUPED_BY_ADDEND_FLAG`) does *not* fail: `next` constructs and
returns a REL record.  Stream: count 1, initial offset 0, group size 1,
flags 8, then offset delta 4 and info 5 for the single entry. -/
theorem C5_rel_group_has_addend_not_rejected :
    (xh_elf_packed_reloc_iterator_init [1, 0, 1, 8, 4, 5] false).1 = 0 ∧
      (xh_elf_packed_reloc_iterator_next
          (xh_elf_packed_reloc_iterator_init [1, 0, 1, 8, 4, 5] false).2).map Prod.fst =
        some (RelCommon.rel ⟨4, 5⟩) := by
  constructor
  · decide
  · rw [show (xh_elf_packed_reloc_iterator_init [1, 0, 1, 8, 4, 5] false).2 =
        { decoder := [1, 8, 4, 5], relocation_count := 1, group_size := 0, group_flags := 0
          group_r_offset_delta := 0, relocation_index := 0, relocation_group_index := 0
          r_offset := 0, r_info := 0, r_addend := 0, is_use_rela := false } from by decide]
    decide

/-- C5 (amended): for a non-RELA packed region, `read_group_fields` fails
with `XH_ERRNO_FORMAT` when the decoded group flags have *both*
`RELOCATION_GROUP_HAS_ADDEND_FLAG` and `RELOCATION_GROUPED_BY_ADDEND_FLAG`
set; when `RELOCATION_GROUP_HAS_ADDEND_FLAG` is set alone, the per-entry
addend handling of `next` is skipped entirely for non-RELA iterators (its
guard requires `is_use_rela`), so no error is raised there. -/
theorem C5_rel_addend_format_only_when_grouped :
    (∀ (s : PackedIter) (gsz gfl : Nat) (rest rest' : List Nat),
        s.is_use_rela = false →
        xh_elf_sleb128_decoder_next s.decoder = some (gsz, rest) →
        xh_elf_sleb128_decoder_next rest = some (gfl, rest') →
        gfl &&& RELOCATION_GROUP_HAS_ADDEND_FLAG ≠ 0 →
        gfl &&& RELOCATION_GROUPED_BY_ADDEND_FLAG ≠ 0 →
        (xh_elf_packed_reloc_iterator_read_group_fields s).1 = XH_ERRNO_FORMAT) ∧
      ∀ s : PackedIter, s.is_use_rela = false →
        packed_next_addend_part s = some s := by
  constructor
  · intro s gsz gfl rest rest' hrela h1 h2 hhas hgrp
    unfold xh_elf_packed_reloc_iterator_read_group_fields
    rw [h1]
    simp only [h2]
    have haddend : ∀ t : PackedIter, t.group_flags = gfl → t.is_use_rela = false →
        (read_group_addend_part t).1 = XH_ERRNO_FORMAT := by
      intro t hf hr
      unfold read_group_addend_part
      rw [hf, hr, if_pos ⟨hhas, hgrp⟩]
      rfl
    have hinfo : ∀ t : PackedIter, t.group_flags = gfl → t.is_use_rela = false →
        (read_group_info_part t).1 = XH_ERRNO_FORMAT := by
      intro t hf hr
      unfold read_group_info_part
      split
      · split
        · rfl
        · exact haddend _ hf hr
      · exact haddend _ hf hr
    split
    · split
      · rfl
      · exact hinfo _ rfl hrela
    · exact hinfo _ rfl hrela
  · intro s hrela
    unfold packed_next_addend_part
    rw [if_neg]
    intro hc
    rw [hrela] at hc
    exact absurd hc.1 (by simp)

/-- Witness for C5's amended theorem: on a concrete non-RELA iterator whose
next group header decodes to flags 12 (`GROUP_HAS_ADDEND | GROUPED_BY_ADDEND`),
`read_group_fields` returns `XH_ERRNO_FORMAT`, and the per-entry addend part
is the identity. -/
theorem C5_rel_addend_format_only_when_grouped_witness :
    (xh_elf_packed_reloc_iterator_read_group_fields
        { decoder := [1, 12], relocation_count := 1, group_size := 0, group_flags := 0
          group_r_offset_delta := 0, relocation_index := 0, relocation_group_index := 0
          r_offset := 0, r_info := 0, r_addend := 0, is_use_rela := false }).1 =
      XH_ERRNO_FORMAT ∧
    packed_next_addend_part
        { decoder := [1, 12], relocation_count := 1, group_size := 0, group_flags := 0
          group_r_offset_delta := 0, relocation_index := 0, relocation_group_index := 0
          r_offset := 0, r_info := 0, r_addend := 0, is_use_rela := false } =
      some
        { decoder := [1, 12], relocation_count := 1, group_size := 0, group_flags := 0
          group_r_offset_delta := 0, relocation_index := 0, relocation_group_index := 0
          r_offset := 0, r_info := 0, r_addend := 0, is_use_rela := false } :=
  ⟨C5_rel_addend_format_only_when_grouped.1 _ 1 12 [12] [] rfl (by decide) (by decide)
      (by decide) (by decide),
    C5_rel_addend_format_only_when_grouped.2 _ rfl⟩

/-!
## C6: one APS2 RELA group with constant offset delta, shared info, addends

The theorem quantifies over encodings via `EncodesSleb`, so it covers every
well-formed SLEB128 spelling of the header and addend values.
-/

/-- `b` is a byte sequence that the SLEB128 decoder reads as exactly the
value `v`, leaving any following bytes untouched. -/
def EncodesSleb (b : List Nat) (v : Nat) : Prop :=
  ∀ rest, xh_elf_sleb128_decoder_next (b ++ rest) = some (v, rest)

/-- Concatenation of the encodings in a (value, encoding) list. -/
def joinEnc (vs : List (Nat × List Nat)) : List Nat :=
  (vs.map Prod.snd).flatten

/-- The records a RELA group with constant `delta`, shared `info` and
per-entry addend values emits, written as the iterator computes them: the
offset and the running addend advance once per entry, mod `2^64`. -/
def expectedGroup (off info addend delta : Nat) : List Nat → List RelCommon
  | [] => []
  | v :: vs =>
    RelCommon.rela ⟨(off + delta) % WORD_MOD, info, (addend + v) % WORD_MOD⟩ ::
      expectedGroup ((off + delta) % WORD_MOD) info ((addend + v) % WORD_MOD) delta vs

/-- Closed form of `expectedGroup`: the k-th record has offset
`off + (k+1)*delta` and addend `ad` plus the sum of the first `k+1` addend
values, mod `2^64`. -/
theorem expectedGroup_closed (info delta : Nat) : ∀ (vals : List Nat) (off ad : Nat),
    expectedGroup off info ad delta vals =
      (List.range vals.length).map (fun k =>
        RelCommon.rela ⟨(off + (k + 1) * delta) % WORD_MOD, info,
          (ad + (vals.take (k + 1)).sum) % WORD_MOD⟩) := by
  intro vals
  induction vals with
  | nil => intro off ad; rfl
  | cons v vals ih =>
    intro off ad
    simp only [expectedGroup, List.length_cons, List.range_succ_eq_map, List.map_cons,
      List.map_map, ih]
    congr 1
    · simp
    · apply List.map_congr_left
      intro k _
      simp only [Function.comp_apply, Nat.succ_eq_add_one, RelCommon.rela.injEq,
        Rela.mk.injEq, List.take_succ_cons, List.sum_cons]
      refine ⟨?_, trivial, ?_⟩
      · rw [Nat.mod_add_mod]
        congr 1
        ring
      · rw [Nat.mod_add_mod]
        congr 1
        ring

/-- Walking the iterator inside a single already-read group: flags
`GROUPED_BY_OFFSET_DELTA | GROUPED_BY_INFO | GROUP_HAS_ADDEND` (= 11), the
remaining stream holding one addend encoding per remaining entry. -/
theorem packed_single_group_loop (vs : List (Nat × List Nat)) :
    ∀ s : PackedIter,
      s.is_use_rela = true →
      s.group_flags = 11 →
      s.group_size = s.relocation_count →
      s.relocation_group_index = s.relocation_index →
      s.relocation_index + vs.length = s.relocation_count →
      s.decoder = joinEnc vs →
      (∀ p ∈ vs, EncodesSleb p.2 p.1) →
      packedYields s =
        expectedGroup s.r_offset s.r_info s.r_addend s.group_r_offset_delta
          (vs.map Prod.fst) := by
  induction vs with
  | nil =>
    intro s hrela hflags hgsz hgidx hlen hdec henc
    simp only [List.length_nil] at hlen
    have hnext : xh_elf_packed_reloc_iterator_next s = none := by
      unfold xh_elf_packed_reloc_iterator_next
      rw [if_pos (by omega)]
    rw [packedYields_eq, hnext]
    rfl
  | cons p vs ih =>
    obtain ⟨v, e⟩ := p
    intro s hrela hflags hgsz hgidx hlen hdec henc
    simp only [List.length_cons] at hlen
    have hidx : s.relocation_index < s.relocation_count := by omega
    have hdec' : s.decoder = e ++ joinEnc vs := by
      rw [hdec]; simp [joinEnc]
    have hv : EncodesSleb e v := henc (v, e) (List.mem_cons_self _ _)
    have hcore : packed_next_core s =
        some { s with
               r_offset := (s.r_offset + s.group_r_offset_delta) % WORD_MOD
               r_addend := (s.r_addend + v) % WORD_MOD
               decoder := joinEnc vs } := by
      unfold packed_next_core
      rw [if_neg (by rw [hgidx, hgsz]; omega)]
      unfold packed_next_offset_part
      rw [if_pos (by rw [hflags]; decide)]
      unfold packed_next_info_part
      rw [if_neg (by simp only [hflags]; decide)]
      unfold packed_next_addend_part
      rw [if_pos (by refine ⟨hrela, ?_, ?_⟩ <;> (simp only [hflags]; decide))]
      simp only [hdec', hv (joinEnc vs)]
    have hnext : xh_elf_packed_reloc_iterator_next s =
        some (RelCommon.rela ⟨(s.r_offset + s.group_r_offset_delta) % WORD_MOD, s.r_info,
                (s.r_addend + v) % WORD_MOD⟩,
              { s with
                r_offset := (s.r_offset + s.group_r_offset_delta) % WORD_MOD
                r_addend := (s.r_addend + v) % WORD_MOD
                decoder := joinEnc vs
                relocation_index := s.relocation_index + 1
                relocation_group_index := s.relocation_group_index + 1 }) := by
      unfold xh_elf_packed_reloc_iterator_next
      rw [if_neg (by omega), hcore]
      simp only []
      rw [if_pos hrela]
    rw [packedYields_eq, hnext]
    simp only [List.map_cons, expectedGroup]
    congr 1
    exact ih _ hrela hflags hgsz (by simp only []; omega) (by simp only []; omega) rfl
      (fun q hq => henc q (List.mem_cons_of_mem _ hq))

/-- C6: a well-formed APS2 stream declaring `n` relocations in one RELA group
with flags `GROUPED_BY_OFFSET_DELTA | GROUPED_BY_INFO | GROUP_HAS_ADDEND`
makes the packed iterator emit exactly `n` RELA records: the k-th has
`r_offset = off0 + (k+1)*delta` (the constant delta applied once per entry
starting from the header's initial offset), the `r_info` read once in the
group header, and `r_addend` the running sum of the per-entry addend deltas —
all mod `2^64`.  Additionally (last conjunct), a group whose flags lack
`GROUP_HAS_ADDEND` clamps the running `r_addend` to zero. -/
theorem C6_packed_rela_single_group
    (n off0 delta info : Nat)
    (e_cnt e_off e_gsz e_gfl e_delta e_info : List Nat)
    (addends : List (Nat × List Nat))
    (hn : addends.length = n)
    (hc : EncodesSleb e_cnt n) (ho : EncodesSleb e_off off0)
    (hg : EncodesSleb e_gsz n)
    (hf : EncodesSleb e_gfl
      (RELOCATION_GROUPED_BY_OFFSET_DELTA_FLAG ||| RELOCATION_GROUPED_BY_INFO_FLAG |||
        RELOCATION_GROUP_HAS_ADDEND_FLAG))
    (hd : EncodesSleb e_delta delta) (hi : EncodesSleb e_info info)
    (ha : ∀ p ∈ addends, EncodesSleb p.2 p.1) :
    (xh_elf_packed_reloc_iterator_init
        (e_cnt ++ e_off ++ e_gsz ++ e_gfl ++ e_delta ++ e_info ++ joinEnc addends) true).1
        = 0 ∧
      packedYields (xh_elf_packed_reloc_iterator_init
          (e_cnt ++ e_off ++ e_gsz ++ e_gfl ++ e_delta ++ e_info ++ joinEnc addends) true).2 =
        (List.range n).map (fun k =>
          RelCommon.rela ⟨(off0 + (k + 1) * delta) % WORD_MOD, info,
            ((addends.map Prod.fst).take (k + 1)).sum % WORD_MOD⟩) ∧
      ∀ s : PackedIter, s.group_flags &&& RELOCATION_GROUP_HAS_ADDEND_FLAG = 0 →
        (read_group_addend_part s).1 = 0 ∧ (read_group_addend_part s).2.r_addend = 0 := by
  have hflagval : (RELOCATION_GROUPED_BY_OFFSET_DELTA_FLAG |||
      RELOCATION_GROUPED_BY_INFO_FLAG ||| RELOCATION_GROUP_HAS_ADDEND_FLAG) = 11 := by decide
  rw [hflagval] at hf
  simp only [EncodesSleb] at hc ho hg hf hd hi
  have hinit : xh_elf_packed_reloc_iterator_init
      (e_cnt ++ e_off ++ e_gsz ++ e_gfl ++ e_delta ++ e_info ++ joinEnc addends) true =
      (0, { decoder := e_gsz ++ e_gfl ++ e_delta ++ e_info ++ joinEnc addends
            relocation_count := n, group_size := 0, group_flags := 0
            group_r_offset_delta := 0, relocation_index := 0, relocation_group_index := 0
            r_offset := off0, r_info := 0, r_addend := 0, is_use_rela := true }) := by
    unfold xh_elf_packed_reloc_iterator_init
    simp only [List.append_assoc, hc, ho]
  refine ⟨by rw [hinit], ?_, ?_⟩
  · rw [hinit]
    simp only []
    rcases Nat.eq_zero_or_pos n with hn0 | hnpos
    · subst hn0
      have : addends = [] := List.length_eq_zero.mp hn
      subst this
      rw [packedYields_eq]
      rfl
    · -- the first `next` call reads the group header; afterwards the state is
      -- exactly a mid-group state handled by `packed_single_group_loop`
      set s0 : PackedIter :=
        { decoder := e_gsz ++ e_gfl ++ e_delta ++ e_info ++ joinEnc addends
          relocation_count := n, group_size := 0, group_flags := 0
          group_r_offset_delta := 0, relocation_index := 0, relocation_group_index := 0
          r_offset := off0, r_info := 0, r_addend := 0, is_use_rela := true } with hs0
      set s1 : PackedIter :=
        { decoder := joinEnc addends
          relocation_count := n, group_size := n, group_flags := 11
          group_r_offset_delta := delta, relocation_index := 0, relocation_group_index := 0
          r_offset := off0, r_info := info, r_addend := 0, is_use_rela := true } with hs1
      have hrgf : xh_elf_packed_reloc_iterator_read_group_fields s0 = (0, s1) := by
        unfold xh_elf_packed_reloc_iterator_read_group_fields
        simp only [hs0, List.append_assoc, hg, hf]
        rw [if_pos (by decide)]
        simp only [hd]
        unfold read_group_info_part
        rw [if_pos (by simp only []; decide)]
        simp only [hi]
        unfold read_group_addend_part
        rw [if_neg (by simp only []; decide), if_neg (by simp only []; decide)]
      have hcs0 : packed_next_core s0 = packed_next_offset_part s1 := by
        unfold packed_next_core
        rw [if_pos (show s0.relocation_group_index = s0.group_size from rfl), hrgf]
        simp
      have hcs1 : packed_next_core s1 = packed_next_offset_part s1 := by
        unfold packed_next_core
        rw [if_neg (show ¬s1.relocation_group_index = s1.group_size from by
          dsimp only [hs1]; omega)]
      have hnext01 : xh_elf_packed_reloc_iterator_next s0 =
          xh_elf_packed_reloc_iterator_next s1 := by
        unfold xh_elf_packed_reloc_iterator_next
        rw [if_neg (show ¬s0.relocation_index ≥ s0.relocation_count from by
              dsimp only [hs0]; omega),
            if_neg (show ¬s1.relocation_index ≥ s1.relocation_count from by
              dsimp only [hs1]; omega),
            hcs0, hcs1]
      have hy01 : packedYields s0 = packedYields s1 := by
        rw [packedYields_eq, hnext01, ← packedYields_eq]
      rw [hy01, packed_single_group_loop addends s1 rfl rfl rfl rfl (by simp [hs1, hn]) rfl ha]
      simp only [hs1]
      rw [expectedGroup_closed]
      simp [hn]
  · intro s h8
    unfold read_group_addend_part
    rw [if_neg (by rw [h8]; simp), if_pos h8]
    exact ⟨rfl, rfl⟩

/-- Witness for C6: the spec's scenario 3 concretely — 3 relocations, initial
offset 16, delta 8, shared info 34, addend deltas 1, 2, 3, all single-byte
SLEB128 encodings.  The emitted records are offsets 24, 32, 40 with running
addends 1, 3, 6. -/
theorem C6_packed_rela_single_group_witness :
    (xh_elf_packed_reloc_iterator_init [3, 16, 3, 11, 8, 34, 1, 2, 3] true).1 = 0 ∧
      packedYields (xh_elf_packed_reloc_iterator_init [3, 16, 3, 11, 8, 34, 1, 2, 3] true).2 =
        [RelCommon.rela ⟨24, 34, 1⟩, RelCommon.rela ⟨32, 34, 3⟩,
          RelCommon.rela ⟨40, 34, 6⟩] := by
  have h := C6_packed_rela_single_group 3 16 8 34 [3] [16] [3] [11] [8] [34]
    [(1, [1]), (2, [2]), (3, [3])] rfl
    (fun rest => rfl) (fun rest => rfl) (fun rest => rfl) (fun rest => rfl)
    (fun rest => rfl) (fun rest => rfl)
    (by intro q hq
        simp only [List.mem_cons, List.not_mem_nil, or_false] at hq
        rcases hq with rfl | rfl | rfl <;> exact fun rest => rfl)
  have hstream : [3] ++ [16] ++ [3] ++ [11] ++ [8] ++ [34] ++
      joinEnc [(1, [1]), (2, [2]), (3, [3])] = [3, 16, 3, 11, 8, 34, 1, 2, 3] := by rfl
  rw [hstream] at h
  exact ⟨h.1, h.2.1.trans (by decide)⟩

/-!
## ELF image memory and the image view (`xh_elf_t`)

The C reads the loaded image by casting raw pointers to typed views
(`ElfW(Ehdr)*`, `ElfW(Phdr)*`, `ElfW(Dyn)*`, `uint32_t*`, `char*`, ...).  We
model the read-only image as one bundle of typed-read accessors, each indexed
by byte address — the standard shallow embedding of type-punned reads from a
well-formed image.  `cstr a` is the NUL-terminated byte string starting at
`a` (what `strcmp` traverses).
-/

/-- Fields of `ElfW(Ehdr)` the source reads. -/
structure Ehdr where
  e_ident : Nat → Nat
  e_type : Nat
  e_machine : Nat
  e_version : Nat
  e_phoff : Nat
  e_phnum : Nat

/-- Fields of `ElfW(Phdr)` the source reads. -/
structure Phdr where
  p_type : Nat
  p_offset : Nat
  p_vaddr : Nat
  p_memsz : Nat
  p_flags : Nat

/-- `ElfW(Dyn)`: tag and the `d_un` value/pointer union. -/
structure Dyn where
  d_tag : Nat
  d_un : Nat

/-- The only field of `ElfW(Sym)` the source reads. -/
structure Sym where
  st_name : Nat

/-- Typed read accessors over the loaded (read-only) image. -/
structure Mem where
  ehdr : Nat → Ehdr
  phdr : Nat → Phdr
  dyn : Nat → Dyn
  sym : Nat → Sym
  byte : Nat → Nat
  word32 : Nat → Nat
  word : Nat → Nat
  cstr : Nat → List Nat
  rel : Nat → Rel
  rela : Nat → Rela

/-- `xh_elf_t`: the image view.  Pointer fields are byte addresses (`0` is
`NULL`); `pathname` is the borrowed string (`none` is `NULL`). -/
structure XhElf where
  pathname : Option String := none
  base_addr : Nat := 0
  bias_addr : Nat := 0
  ehdr : Nat := 0
  phdr : Nat := 0
  dyn : Nat := 0
  dyn_sz : Nat := 0
  strtab : Nat := 0
  symtab : Nat := 0
  relplt : Nat := 0
  relplt_sz : Nat := 0
  reldyn : Nat := 0
  reldyn_sz : Nat := 0
  relandroid : Nat := 0
  relandroid_sz : Nat := 0
  bucket_cnt : Nat := 0
  chain_cnt : Nat := 0
  symoffset : Nat := 0
  bloom_sz : Nat := 0
  bloom_shift : Nat := 0
  bloom : Nat := 0
  bucket : Nat := 0
  chain : Nat := 0
  is_use_rela : Bool := false
  is_use_gnu_hash : Bool := false
  deriving Repr, DecidableEq

/-- The all-zero view (`memset(self, 0, sizeof(xh_elf_t))`). -/
def XhElf.zero : XhElf := {}

/-!  Standard ELF constants (from `<elf.h>` / bionic, per the ELF standard). -/

def PT_LOAD : Nat := 1
def PT_DYNAMIC : Nat := 2
def DT_PLTRELSZ : Nat := 2
def DT_HASH : Nat := 4
def DT_STRTAB : Nat := 5
def DT_SYMTAB : Nat := 6
def DT_RELA : Nat := 7
def DT_RELASZ : Nat := 8
def DT_REL : Nat := 17
def DT_RELSZ : Nat := 18
def DT_PLTREL : Nat := 20
def DT_JMPREL : Nat := 23
def DT_ANDROID_REL : Nat := 0x6000000f
def DT_ANDROID_RELSZ : Nat := 0x60000010
def DT_ANDROID_RELA : Nat := 0x60000011
def DT_ANDROID_RELASZ : Nat := 0x60000012
def DT_GNU_HASH : Nat := 0x6ffffef5
def EI_CLASS : Nat := 4
def EI_DATA : Nat := 5
def EI_VERSION : Nat := 6
def ELFCLASS64 : Nat := 2
def ELFDATA2LSB : Nat := 1
def EV_CURRENT : Nat := 1
def ET_EXEC : Nat := 2
def ET_DYN : Nat := 3
def EM_AARCH64 : Nat := 183
def PF_X : Nat := 1
def PF_W : Nat := 2
def PF_R : Nat := 4
def PAGE_SIZE : Nat := 4096

/-- `xh_elf_check_elfheader`: the standalone ELF header validator (magic,
class, endianness, `EI_VERSION`, type, machine, `e_version`), in source
order; aarch64 monomorphization (`ELFCLASS64` / `EM_AARCH64`). -/
def xh_elf_check_elfheader (m : Mem) (base_addr : Nat) : Nat :=
  let ehdr := m.ehdr base_addr
  if ¬(ehdr.e_ident 0 = 0x7f ∧ ehdr.e_ident 1 = 0x45 ∧
       ehdr.e_ident 2 = 0x4c ∧ ehdr.e_ident 3 = 0x46) then XH_ERRNO_FORMAT
  else if ehdr.e_ident EI_CLASS ≠ ELFCLASS64 then XH_ERRNO_FORMAT
  else if ehdr.e_ident EI_DATA ≠ ELFDATA2LSB then XH_ERRNO_FORMAT
  else if ehdr.e_ident EI_VERSION ≠ EV_CURRENT then XH_ERRNO_FORMAT
  else if ¬(ehdr.e_type = ET_EXEC ∨ ehdr.e_type = ET_DYN) then XH_ERRNO_FORMAT
  else if ehdr.e_machine ≠ EM_AARCH64 then XH_ERRNO_FORMAT
  else if ehdr.e_version ≠ EV_CURRENT then XH_ERRNO_FORMAT
  else 0

/-- `xh_elf_get_first_segment_by_type`: scan the program header array
(`self->phdr`, `self->ehdr->e_phnum` entries of `sizeof(ElfW(Phdr))` bytes)
and return the address of the first header of the given type, `NULL`
(`none`) if absent. -/
def xh_elf_get_first_segment_by_type (m : Mem) (self : XhElf) (ptype : Nat) : Option Nat :=
  ((List.range (m.ehdr self.ehdr).e_phnum).find? (fun i =>
      (m.phdr (self.phdr + SIZEOF_PHDR * i)).p_type == ptype)).map
    (fun i => self.phdr + SIZEOF_PHDR * i)

/-- `xh_elf_check`: the post-construction invariant validation, in source
order. -/
def xh_elf_check (self : XhElf) : Nat :=
  if self.pathname = none then 1
  else if self.base_addr = 0 then 1
  else if self.bias_addr = 0 then 1
  else if self.ehdr = 0 then 1
  else if self.phdr = 0 then 1
  else if self.strtab = 0 then 1
  else if self.symtab = 0 then 1
  else if self.bucket = 0 then 1
  else if self.chain = 0 then 1
  else if self.is_use_gnu_hash = true ∧ self.bloom = 0 then 1
  else 0

/-- One arm of the `switch(dyn->d_tag)` in `xh_elf_init`'s dynamic-entry
walk.  Pointer-valued entries are relocated by `bias_addr` (`ElfW(Addr)`
addition, mod `2^64`). -/
def xh_elf_dyn_switch (m : Mem) (self : XhElf) (addr : Nat) : XhElf :=
  let dyn := m.dyn addr
  if dyn.d_tag = DT_STRTAB then
    { self with strtab := (self.bias_addr + dyn.d_un) % WORD_MOD }
  else if dyn.d_tag = DT_SYMTAB then
    { self with symtab := (self.bias_addr + dyn.d_un) % WORD_MOD }
  else if dyn.d_tag = DT_PLTREL then
    { self with is_use_rela := dyn.d_un = DT_RELA }
  else if dyn.d_tag = DT_JMPREL then
    { self with relplt := (self.bias_addr + dyn.d_un) % WORD_MOD }
  else if dyn.d_tag = DT_PLTRELSZ then
    { self with relplt_sz := dyn.d_un }
  else if dyn.d_tag = DT_REL ∨ dyn.d_tag = DT_RELA then
    { self with reldyn := (self.bias_addr + dyn.d_un) % WORD_MOD }
  else if dyn.d_tag = DT_RELSZ ∨ dyn.d_tag = DT_RELASZ then
    { self with reldyn_sz := dyn.d_un }
  else if dyn.d_tag = DT_ANDROID_REL ∨ dyn.d_tag = DT_ANDROID_RELA then
    { self with relandroid := (self.bias_addr + dyn.d_un) % WORD_MOD }
  else if dyn.d_tag = DT_ANDROID_RELSZ ∨ dyn.d_tag = DT_ANDROID_RELASZ then
    { self with relandroid_sz := dyn.d_un }
  else if dyn.d_tag = DT_HASH then
    { self with bucket_cnt := m.word32 ((self.bias_addr + dyn.d_un) % WORD_MOD)
                chain_cnt := m.word32 ((self.bias_addr + dyn.d_un) % WORD_MOD + 4)
                bucket := (self.bias_addr + dyn.d_un) % WORD_MOD + 8
                chain := (self.bias_addr + dyn.d_un) % WORD_MOD + 8 +
                  4 * m.word32 ((self.bias_addr + dyn.d_un) % WORD_MOD) }
  else if dyn.d_tag = DT_GNU_HASH then
    { self with bucket_cnt := m.word32 ((self.bias_addr + dyn.d_un) % WORD_MOD)
                symoffset := m.word32 ((self.bias_addr + dyn.d_un) % WORD_MOD + 4)
                bloom_sz := m.word32 ((self.bias_addr + dyn.d_un) % WORD_MOD + 8)
                bloom_shift := m.word32 ((self.bias_addr + dyn.d_un) % WORD_MOD + 12)
                bloom := (self.bias_addr + dyn.d_un) % WORD_MOD + 16
                bucket := (self.bias_addr + dyn.d_un) % WORD_MOD + 16 +
                  8 * m.word32 ((self.bias_addr + dyn.d_un) % WORD_MOD + 8)
                chain := (self.bias_addr + dyn.d_un) % WORD_MOD + 16 +
                  8 * m.word32 ((self.bias_addr + dyn.d_un) % WORD_MOD + 8) +
                  4 * m.word32 ((self.bias_addr + dyn.d_un) % WORD_MOD)
                is_use_gnu_hash := true }
  else self

/-- The `for(; dyn < dyn_end; dyn++)` walk over the `dyn_sz / sizeof(Dyn)`
dynamic entries starting at `self->dyn`. -/
def xh_elf_dyn_walk (m : Mem) (self : XhElf) : XhElf :=
  (List.range (self.dyn_sz / SIZEOF_DYN)).foldl
    (fun s i => xh_elf_dyn_switch m s (self.dyn + SIZEOF_DYN * i)) self

/-- Lines 761-763 of `xh_elf_init`: record `base_addr`, `ehdr`, and
`phdr = base_addr + e_phoff`. -/
def init_view_seed (m : Mem) (self : XhElf) (base_addr : Nat) : XhElf :=
  { self with base_addr := base_addr, ehdr := base_addr
              phdr := (base_addr + (m.ehdr base_addr).e_phoff) % WORD_MOD }

/-- Lines 766-855 of `xh_elf_init`: locate the first `PT_LOAD` (the source
dereferences the result without a NULL check — `none` models that undefined
dereference), require file offset 0, compute `bias_addr = base_addr -
p_vaddr` (unsigned wraparound), locate `PT_DYNAMIC`, and walk the dynamic
entries. -/
def init_load_dynamic (m : Mem) (self : XhElf) : Option (Nat × XhElf) :=
  match xh_elf_get_first_segment_by_type m self PT_LOAD with
  | none => none
  | some lhdrAddr =>
    if (m.phdr lhdrAddr).p_offset ≠ 0 then some (XH_ERRNO_FORMAT, self)
    else
      let self := { self with bias_addr :=
        (self.base_addr + WORD_MOD - (m.phdr lhdrAddr).p_vaddr % WORD_MOD) % WORD_MOD }
      match xh_elf_get_first_segment_by_type m self PT_DYNAMIC with
      | none => some (XH_ERRNO_FORMAT, self)
      | some dhdrAddr =>
        let self := { self with
          dyn := (self.bias_addr + (m.phdr dhdrAddr).p_vaddr) % WORD_MOD
          dyn_sz := (m.phdr dhdrAddr).p_memsz }
        some (0, xh_elf_dyn_walk m self)

/-- Lines 859-875 of `xh_elf_init`: if an Android packed region is present,
require the 4-byte `A P S 2` magic and strip it; on failure return `FORMAT`
with the view untouched (the early `return` skips any cleanup). -/
def init_android_check (m : Mem) (self : XhElf) : Nat × XhElf :=
  if self.relandroid ≠ 0 then
    if self.relandroid_sz < 4 ∨
       m.byte self.relandroid ≠ 65 ∨ m.byte (self.relandroid + 1) ≠ 80 ∨
       m.byte (self.relandroid + 2) ≠ 83 ∨ m.byte (self.relandroid + 3) ≠ 50 then
      (XH_ERRNO_FORMAT, self)
    else
      (0, { self with relandroid := self.relandroid + 4
                      relandroid_sz := self.relandroid_sz - 4 })
  else (0, self)

/-- `xh_elf_init`, composed of the stages above in source order.  `none`
models the undefined null-dereference when no `PT_LOAD` exists; zeroing
(`memset`) happens only when the final `xh_elf_check` fails. -/
def xh_elf_init (m : Mem) (self : XhElf) (base_addr : Nat) (pathname : Option String) :
    Option (Nat × XhElf) :=
  if self.pathname ≠ none then some (0, self)
  else if pathname = none then some (XH_ERRNO_INVAL, self)
  else
    match init_load_dynamic m (init_view_seed m self base_addr) with
    | none => none
    | some rs =>
      if rs.1 ≠ 0 then some (rs.1, rs.2)
      else
        let ac := init_android_check m { rs.2 with pathname := pathname }
        if ac.1 ≠ 0 then some (ac.1, ac.2)
        else if xh_elf_check ac.2 ≠ 0 then some (XH_ERRNO_FORMAT, XhElf.zero)
        else some (0, ac.2)

/-!
## Concrete images for C2 / C4 / C10

`memBadMagic`: a loadable image (valid `PT_LOAD` at file offset 0, a
`PT_DYNAMIC` with string/symbol/hash tables) whose ELF header is garbage
(all-zero `e_ident`, type, machine). `memBadAps2`: the same shape plus an
Android packed relocation region whose magic is `A P S 1`.  `memNoLoad`: an
image with no program headers at all.  Base address 4096 throughout.
-/

def memBadMagic : Mem :=
  { ehdr := fun _ =>
      { e_ident := fun _ => 0, e_type := 0, e_machine := 0, e_version := 0
        e_phoff := 64, e_phnum := 2 }
    phdr := fun a =>
      if a = 4160 then { p_type := PT_LOAD, p_offset := 0, p_vaddr := 0, p_memsz := 8192, p_flags := 6 }
      else if a = 4216 then { p_type := PT_DYNAMIC, p_offset := 0, p_vaddr := 512, p_memsz := 64, p_flags := 6 }
      else { p_type := 0, p_offset := 0, p_vaddr := 0, p_memsz := 0, p_flags := 0 }
    dyn := fun a =>
      if a = 4608 then { d_tag := DT_STRTAB, d_un := 256 }
      else if a = 4624 then { d_tag := DT_SYMTAB, d_un := 768 }
      else if a = 4640 then { d_tag := DT_HASH, d_un := 1024 }
      else { d_tag := 0, d_un := 0 }
    sym := fun _ => { st_name := 0 }
    byte := fun _ => 0
    word32 := fun a => if a = 5120 then 1 else if a = 5124 then 1 else 0
    word := fun _ => 0
    cstr := fun _ => []
    rel := fun _ => { r_offset := 0, r_info := 0 }
    rela := fun _ => { r_offset := 0, r_info := 0, r_addend := 0 } }

def memBadAps2 : Mem :=
  { ehdr := fun _ =>
      { e_ident := fun _ => 0, e_type := 0, e_machine := 0, e_version := 0
        e_phoff := 64, e_phnum := 2 }
    phdr := fun a =>
      if a = 4160 then { p_type := PT_LOAD, p_offset := 0, p_vaddr := 0, p_memsz := 8192, p_flags := 6 }
      else if a = 4216 then { p_type := PT_DYNAMIC, p_offset := 0, p_vaddr := 512, p_memsz := 96, p_flags := 6 }
      else { p_type := 0, p_offset := 0, p_vaddr := 0, p_memsz := 0, p_flags := 0 }
    dyn := fun a =>
      if a = 4608 then { d_tag := DT_STRTAB, d_un := 256 }
      else if a = 4624 then { d_tag := DT_SYMTAB, d_un := 768 }
      else if a = 4640 then { d_tag := DT_HASH, d_un := 1024 }
      else if a = 4656 then { d_tag := DT_ANDROID_REL, d_un := 2048 }
      else if a = 4672 then { d_tag := DT_ANDROID_RELSZ, d_un := 16 }
      else { d_tag := 0, d_un := 0 }
    sym := fun _ => { st_name := 0 }
    byte := fun a =>
      if a = 6144 then 65 else if a = 6145 then 80
      else if a = 6146 then 83 else if a = 6147 then 49 else 0
    word32 := fun a => if a = 5120 then 1 else if a = 5124 then 1 else 0
    word := fun _ => 0
    cstr := fun _ => []
    rel := fun _ => { r_offset := 0, r_info := 0 }
    rela := fun _ => { r_offset := 0, r_info := 0, r_addend := 0 } }

def memNoLoad : Mem :=
  { ehdr := fun _ =>
      { e_ident := fun _ => 0, e_type := 0, e_machine := 0, e_version := 0
        e_phoff := 64, e_phnum := 0 }
    phdr := fun _ => { p_type := 0, p_offset := 0, p_vaddr := 0, p_memsz := 0, p_flags := 0 }
    dyn := fun _ => { d_tag := 0, d_un := 0 }
    sym := fun _ => { st_name := 0 }
    byte := fun _ => 0
    word32 := fun _ => 0
    word := fun _ => 0
    cstr := fun _ => []
    rel := fun _ => { r_offset := 0, r_info := 0 }
    rela := fun _ => { r_offset := 0, r_info := 0, r_addend := 0 } }

/-- C4 (amended): `xh_elf_check_elfheader` succeeds exactly when the magic
bytes, class (`ELFCLASS64`), endianness (`ELFDATA2LSB`), both version fields
(`EV_CURRENT`), type (`ET_EXEC`/`ET_DYN`) and machine (`EM_AARCH64`) are all
valid, and it never returns any status other than `0` or `XH_ERRNO_FORMAT`;
but `xh_elf_init` never invokes it — on `memBadMagic`, whose header violates
every one of those checks, `init` still succeeds. -/
theorem C4_header_checks_not_called_by_init :
    (∀ (m : Mem) (base : Nat),
        xh_elf_check_elfheader m base = 0 ↔
          ((m.ehdr base).e_ident 0 = 0x7f ∧ (m.ehdr base).e_ident 1 = 0x45 ∧
            (m.ehdr base).e_ident 2 = 0x4c ∧ (m.ehdr base).e_ident 3 = 0x46) ∧
          (m.ehdr base).e_ident EI_CLASS = ELFCLASS64 ∧
          (m.ehdr base).e_ident EI_DATA = ELFDATA2LSB ∧
          (m.ehdr base).e_ident EI_VERSION = EV_CURRENT ∧
          ((m.ehdr base).e_type = ET_EXEC ∨ (m.ehdr base).e_type = ET_DYN) ∧
          (m.ehdr base).e_machine = EM_AARCH64 ∧
          (m.ehdr base).e_version = EV_CURRENT) ∧
    (∀ (m : Mem) (base : Nat),
        xh_elf_check_elfheader m base = 0 ∨
          xh_elf_check_elfheader m base = XH_ERRNO_FORMAT) ∧
    (xh_elf_init memBadMagic XhElf.zero 4096 (some "x")).map Prod.fst = some 0 := by
  refine ⟨?_, ?_, by decide⟩
  · intro m base
    unfold xh_elf_check_elfheader
    simp only []
    split_ifs with h1 h2 h3 h4 h5 h6 h7
    all_goals constructor
    all_goals intro h
    all_goals
      first
      | rfl
      | tauto
  · intro m base
    unfold xh_elf_check_elfheader
    simp only []
    split_ifs
    all_goals simp [XH_ERRNO_FORMAT]

/-- C4 (counterexample): the claim says header validation is `xh_elf_init`'s
first step and any violation yields `FORMAT`; but on an image whose header
fails the standalone validator, `init` returns success. -/
theorem C4_init_skips_header_validation :
    xh_elf_check_elfheader memBadMagic 4096 = XH_ERRNO_FORMAT ∧
      (xh_elf_init memBadMagic XhElf.zero 4096 (some "x")).map Prod.fst = some 0 := by
  decide

/-- C10: when the image has no `PT_LOAD` segment (and the preceding checks
pass), `xh_elf_init` dereferences the `NULL` result of the first-segment
search — modelled as the undefined result `none`: init is not total and has
no error status for this case. -/
theorem C10_missing_pt_load_null_deref (m : Mem) (self : XhElf) (base : Nat)
    (p : Option String) (h0 : self.pathname = none) (hp : p ≠ none)
    (hnoload : xh_elf_get_first_segment_by_type m (init_view_seed m self base) PT_LOAD
      = none) :
    xh_elf_init m self base p = none := by
  unfold xh_elf_init
  rw [if_neg (by simp [h0]), if_neg hp]
  unfold init_load_dynamic
  rw [hnoload]

/-- Witness for C10: a concrete image with zero program headers makes `init`
hit the undefined dereference. -/
theorem C10_missing_pt_load_null_deref_witness :
    xh_elf_init memNoLoad XhElf.zero 4096 (some "x") = none :=
  C10_missing_pt_load_null_deref memNoLoad XhElf.zero 4096 (some "x") rfl
    (by decide) (by decide)

/-- Helper for C2: when the Android magic check fails, it returns
`XH_ERRNO_FORMAT` and leaves the view exactly as it was. -/
theorem init_android_check_fail (m : Mem) (s : XhElf)
    (h : (init_android_check m s).1 ≠ 0) :
    init_android_check m s = (XH_ERRNO_FORMAT, s) := by
  unfold init_android_check at h ⊢
  repeat' split at h
  all_goals simp_all

/-- The view after `init_load_dynamic` on the malformed-APS2 image. -/
def c2_v1 : XhElf :=
  ((init_load_dynamic memBadAps2 (init_view_seed memBadAps2 XhElf.zero 4096)).map
    Prod.snd).getD XhElf.zero

/-- C2 (counterexample): on a malformed-APS2 image `init` returns `FORMAT`
but the view is *not* zeroed: `pathname` was already set (line 857 precedes
the magic check) and `base_addr` is still 4096. -/
theorem C2_malformed_aps2_view_not_zeroed :
    (xh_elf_init memBadAps2 XhElf.zero 4096 (some "x")).map Prod.fst =
        some XH_ERRNO_FORMAT ∧
      (xh_elf_init memBadAps2 XhElf.zero 4096 (some "x")).map (fun r => r.2.pathname) =
        some (some "x") ∧
      (xh_elf_init memBadAps2 XhElf.zero 4096 (some "x")).map (fun r => r.2.base_addr) =
        some 4096 := by
  decide

/-- C2 (amended): on a fresh view, after the load/dynamic stage succeeds, a
failing Android-magic check makes `init` return `FORMAT` with the view
populated and `pathname` set (not zeroed); the view is zeroed (with
`FORMAT`) only when the final `xh_elf_check` post-condition validation
fails. -/
theorem C2_view_zeroed_only_on_check_failure
    (m : Mem) (self : XhElf) (base : Nat) (p : Option String) (v1 : XhElf)
    (h0 : self.pathname = none) (hp : p ≠ none)
    (hload : init_load_dynamic m (init_view_seed m self base) = some (0, v1)) :
    ((init_android_check m { v1 with pathname := p }).1 ≠ 0 →
        xh_elf_init m self base p =
          some (XH_ERRNO_FORMAT, { v1 with pathname := p })) ∧
    (∀ v2, init_android_check m { v1 with pathname := p } = (0, v2) →
        xh_elf_check v2 ≠ 0 →
        xh_elf_init m self base p = some (XH_ERRNO_FORMAT, XhElf.zero)) := by
  constructor
  · intro hA
    unfold xh_elf_init
    rw [if_neg (by simp [h0]), if_neg hp, hload]
    simp only []
    rw [if_neg (by simp), init_android_check_fail m _ hA]
    simp [XH_ERRNO_FORMAT]
  · intro v2 hA hchk
    unfold xh_elf_init
    rw [if_neg (by simp [h0]), if_neg hp, hload]
    simp only []
    rw [if_neg (by simp), hA]
    rw [if_neg (by simp), if_pos (show xh_elf_check (0, v2).2 ≠ 0 from hchk)]

/-- Witness for C2's amended theorem: the malformed-APS2 image concretely
yields `FORMAT` with the populated (pathname-bearing) view. -/
theorem C2_view_zeroed_only_on_check_failure_witness :
    xh_elf_init memBadAps2 XhElf.zero 4096 (some "x") =
      some (XH_ERRNO_FORMAT, { c2_v1 with pathname := some "x" }) :=
  (C2_view_zeroed_only_on_check_failure memBadAps2 XhElf.zero 4096 (some "x") c2_v1
      rfl (by decide) (by decide)).1 (by decide)

/-!
## Hash functions and symbol lookups

Symbol names are the NUL-terminated byte strings `strcmp` compares; the
query symbol and stored names are `List Nat`.  The classic-hash chain and
the GNU-hash chain walks can loop forever on corrupt tables (the C has no
bound), so the walks carry explicit fuel: a `none` result models the
non-terminating walk, `some none` is `XH_ERRNO_NOTFND`, `some (some i)` is
success with `*symidx = i`.
-/

/-- `xh_elf_hash` (classic ELF hash), `uint32_t` arithmetic. -/
def xh_elf_hash_loop (h : Nat) : List Nat → Nat
  | [] => h
  | c :: rest =>
    let h := ((h <<< 4) + c) % 2 ^ 32
    let g := h &&& 0xf0000000
    xh_elf_hash_loop ((h ^^^ g) ^^^ (g >>> 24)) rest

def xh_elf_hash (name : List Nat) : Nat := xh_elf_hash_loop 0 name

/-- `xh_elf_gnu_hash` (`h = 5381; h += (h << 5) + c`), `uint32_t`. -/
def xh_elf_gnu_hash_loop (h : Nat) : List Nat → Nat
  | [] => h
  | c :: rest => xh_elf_gnu_hash_loop ((h + ((h <<< 5) + c)) % 2 ^ 32) rest

def xh_elf_gnu_hash (name : List Nat) : Nat := xh_elf_gnu_hash_loop 5381 name

/-- `self->strtab + self->symtab[i].st_name`: the name of symbol `i`. -/
def symNameAt (m : Mem) (self : XhElf) (i : Nat) : List Nat :=
  m.cstr ((self.strtab + (m.sym (self.symtab + SIZEOF_SYM * i)).st_name) % WORD_MOD)

/-- The `for(i = bucket[hash % bucket_cnt]; 0 != i; i = chain[i])` loop of
`xh_elf_hash_lookup`. -/
def hash_lookup_loop (m : Mem) (self : XhElf) (symbol : List Nat) :
    Nat → Nat → Option (Option Nat)
  | 0, _ => none
  | fuel + 1, i =>
    if i = 0 then some none
    else if symbol = symNameAt m self i then some (some i)
    else hash_lookup_loop m self symbol fuel (m.word32 (self.chain + 4 * i))

/-- `xh_elf_hash_lookup`. -/
def xh_elf_hash_lookup (fuel : Nat) (m : Mem) (self : XhElf) (symbol : List Nat) :
    Option (Option Nat) :=
  hash_lookup_loop m self symbol fuel
    (m.word32 (self.bucket + 4 * (xh_elf_hash symbol % self.bucket_cnt)))

/-- The `while(1)` chain walk of `xh_elf_gnu_hash_lookup_def`. -/
def gnu_lookup_def_chain (m : Mem) (self : XhElf) (symbol : List Nat) (hash : Nat) :
    Nat → Nat → Option (Option Nat)
  | 0, _ => none
  | fuel + 1, i =>
    let symname := symNameAt m self i
    let symhash := m.word32 (self.chain + 4 * (i - self.symoffset))
    if (hash ||| 1) = (symhash ||| 1) ∧ symbol = symname then some (some i)
    else if symhash &&& 1 ≠ 0 then some none
    else gnu_lookup_def_chain m self symbol hash fuel (i + 1)

/-- `xh_elf_gnu_hash_lookup_def`: bloom filter, bucket entry, chain walk
(64-bit `ElfW(Addr)` bloom words, `elfclass_bits = 64`). -/
def xh_elf_gnu_hash_lookup_def (fuel : Nat) (m : Mem) (self : XhElf)
    (symbol : List Nat) : Option (Option Nat) :=
  let hash := xh_elf_gnu_hash symbol
  let word := m.word (self.bloom + 8 * ((hash / 64) % self.bloom_sz))
  let mask := (1 <<< (hash % 64)) ||| (1 <<< ((hash >>> self.bloom_shift) % 64))
  if word &&& mask ≠ mask then some none
  else
    let i := m.word32 (self.bucket + 4 * (hash % self.bucket_cnt))
    if i < self.symoffset then some none
    else gnu_lookup_def_chain m self symbol hash fuel i

/-- The `for(i = 0; i < symoffset; i++)` scan of
`xh_elf_gnu_hash_lookup_undef`; the first argument is the number of indices
still to scan (`symoffset - i`). -/
def gnu_undef_scan (m : Mem) (self : XhElf) (symbol : List Nat) :
    Nat → Nat → Option Nat
  | 0, _ => none
  | remaining + 1, i =>
    if symNameAt m self i = symbol then some i
    else gnu_undef_scan m self symbol remaining (i + 1)

/-- `xh_elf_gnu_hash_lookup_undef`: linear scan by name over the undefined
symbols, indices `0 .. symoffset - 1`. -/
def xh_elf_gnu_hash_lookup_undef (m : Mem) (self : XhElf) (symbol : List Nat) :
    Option Nat :=
  gnu_undef_scan m self symbol self.symoffset 0

/-- `xh_elf_gnu_hash_lookup`: defined-symbol lookup first, then the
undefined-symbol fallback, else `XH_ERRNO_NOTFND`. -/
def xh_elf_gnu_hash_lookup (fuel : Nat) (m : Mem) (self : XhElf)
    (symbol : List Nat) : Option (Option Nat) :=
  match xh_elf_gnu_hash_lookup_def fuel m self symbol with
  | none => none
  | some (some i) => some (some i)
  | some none =>
    match xh_elf_gnu_hash_lookup_undef m self symbol with
    | some i => some (some i)
    | none => some none

/-- `xh_elf_find_symidx_by_name`. -/
def xh_elf_find_symidx_by_name (fuel : Nat) (m : Mem) (self : XhElf)
    (symbol : List Nat) : Option (Option Nat) :=
  if self.is_use_gnu_hash then xh_elf_gnu_hash_lookup fuel m self symbol
  else xh_elf_hash_lookup fuel m self symbol

theorem gnu_undef_scan_finds (m : Mem) (self : XhElf) (symbol : List Nat) :
    ∀ (rem i k : Nat), i ≤ k → k < i + rem → symNameAt m self k = symbol →
      (∀ j, i ≤ j → j < k → symNameAt m self j ≠ symbol) →
      gnu_undef_scan m self symbol rem i = some k := by
  intro rem
  induction rem with
  | zero => intro i k h1 h2; omega
  | succ rem ih =>
    intro i k h1 h2 hk hmin
    unfold gnu_undef_scan
    rcases Nat.eq_or_lt_of_le h1 with rfl | hlt
    · rw [if_pos hk]
    · rw [if_neg (hmin i le_rfl hlt)]
      exact ih (i + 1) k hlt (by omega) hk (fun j hj1 hj2 => hmin j (by omega) hj2)

theorem gnu_undef_scan_none (m : Mem) (self : XhElf) (symbol : List Nat) :
    ∀ (rem i : Nat), (∀ j, i ≤ j → j < i + rem → symNameAt m self j ≠ symbol) →
      gnu_undef_scan m self symbol rem i = none := by
  intro rem
  induction rem with
  | zero => intro i _; rfl
  | succ rem ih =>
    intro i hnone
    unfold gnu_undef_scan
    rw [if_neg (hnone i le_rfl (by omega))]
    exact ih (i + 1) (fun j hj1 hj2 => hnone j (by omega) (by omega))

/-- C8: when the GNU defined-symbol lookup (bloom filter, bucket, chain
walk) reports no match, `xh_elf_gnu_hash_lookup` falls back to the linear
scan over undefined-symbol indices `0 .. symoffset - 1` and returns the
first index whose name equals the query; when the symbol is absent from
that scan too, the result is `XH_ERRNO_NOTFND` (`some none`).  In
particular a symbol present only as an undefined import is resolved. -/
theorem C8_gnu_hash_undef_fallback (fuel : Nat) (m : Mem) (self : XhElf)
    (symbol : List Nat)
    (hdef : xh_elf_gnu_hash_lookup_def fuel m self symbol = some none) :
    (∀ k, k < self.symoffset → symNameAt m self k = symbol →
        (∀ j, j < k → symNameAt m self j ≠ symbol) →
        xh_elf_gnu_hash_lookup fuel m self symbol = some (some k)) ∧
      ((∀ j, j < self.symoffset → symNameAt m self j ≠ symbol) →
        xh_elf_gnu_hash_lookup fuel m self symbol = some none) := by
  constructor
  · intro k hk hname hmin
    unfold xh_elf_gnu_hash_lookup
    rw [hdef]
    unfold xh_elf_gnu_hash_lookup_undef
    rw [gnu_undef_scan_finds m self symbol self.symoffset 0 k (Nat.zero_le k)
      (by omega) hname (fun j _ hj2 => hmin j hj2)]
  · intro hnone
    unfold xh_elf_gnu_hash_lookup
    rw [hdef]
    unfold xh_elf_gnu_hash_lookup_undef
    rw [gnu_undef_scan_none m self symbol self.symoffset 0
      (fun j _ hj2 => hnone j (by omega))]

/-- A GNU-hashed image whose bloom filter rejects every symbol (all bloom
words zero), with two undefined symbols; symbol index 1 is named `[102]`
(`"f"`). -/
def memGnuC8 : Mem :=
  { ehdr := fun _ =>
      { e_ident := fun _ => 0, e_type := 0, e_machine := 0, e_version := 0
        e_phoff := 0, e_phnum := 0 }
    phdr := fun _ => { p_type := 0, p_offset := 0, p_vaddr := 0, p_memsz := 0, p_flags := 0 }
    dyn := fun _ => { d_tag := 0, d_un := 0 }
    sym := fun a => if a = 280 then { st_name := 2 } else { st_name := 0 }
    byte := fun _ => 0
    word32 := fun _ => 0
    word := fun _ => 0
    cstr := fun a => if a = 514 then [102] else []
    rel := fun _ => { r_offset := 0, r_info := 0 }
    rela := fun _ => { r_offset := 0, r_info := 0, r_addend := 0 } }

def viewGnuC8 : XhElf :=
  { pathname := some "x", base_addr := 4096, bias_addr := 4096, ehdr := 4096
    phdr := 4160, strtab := 512, symtab := 256, symoffset := 2, bloom := 2048
    bloom_sz := 1, bloom_shift := 0, bucket := 2100, bucket_cnt := 1, chain := 2200
    is_use_gnu_hash := true }

/-- Witness for C8: on `memGnuC8` the bloom filter rejects `[102]`
(defined-symbol lookup returns not-found), and the fallback scan resolves
it at undefined-symbol index 1. -/
theorem C8_gnu_hash_undef_fallback_witness :
    xh_elf_gnu_hash_lookup 1 memGnuC8 viewGnuC8 [102] = some (some 1) :=
  (C8_gnu_hash_undef_fallback 1 memGnuC8 viewGnuC8 [102] (by decide)).1 1
    (by decide) (by decide) (by decide)

/-!
## Hook engine

Writable state: the word-sized GOT slots (`*(void **)addr`) and the
per-page protections installed by `mprotect`, bundled as `HookSt` separate
from the read-only image tables (they do not overlap in a well-formed
image).  `mprotect` is a kernel call; it is modelled as always succeeding.
`xh_elf_clear_cache` is a no-op in the `__LP64__` build.  Logging-only
parameters (the symbol and section names) are omitted.  The relocation-type
constants are the aarch64 monomorphization.  The hash-chain fuel of
`xh_elf_find_symidx_by_name` also bounds the three relocation-walk loops;
`none` models a run that does not complete.
-/

def R_GENERIC_JUMP_SLOT : Nat := 1026
def R_GENERIC_GLOB_DAT : Nat := 1025
def R_GENERIC_ABS : Nat := 257

/-- `ELF64_R_SYM(info) = info >> 32`, truncated to `ElfW(Word)`. -/
def elf_r_sym (info : Nat) : Nat := (info >>> 32) % 2 ^ 32

/-- `ELF64_R_TYPE(info) = info & 0xffffffff`. -/
def elf_r_type (info : Nat) : Nat := info &&& 0xffffffff

def PAGE_START (addr : Nat) : Nat := addr / PAGE_SIZE * PAGE_SIZE

def PAGE_END (addr : Nat) : Nat := PAGE_START addr + PAGE_SIZE

/-- `PF_TO_PROT`: map `PF_R|PF_W|PF_X` to `PROT_READ|PROT_WRITE|PROT_EXEC`. -/
def PF_TO_PROT (v : Nat) : Nat :=
  (if v &&& PF_R ≠ 0 then 1 else 0) ||| (if v &&& PF_W ≠ 0 then 2 else 0) |||
    (if v &&& PF_X ≠ 0 then 4 else 0)

/-- Writable process state: GOT slot words and per-page protections. -/
structure HookSt where
  mem : Nat → Nat
  prot : Nat → Nat

/-- `xh_elf_get_mem_access`: find the `PT_LOAD` segment whose page-rounded
range contains `addr` and return its `p_flags`; `XH_ERRNO_NOTFND` (`none`)
otherwise. -/
def xh_elf_get_mem_access (m : Mem) (self : XhElf) (addr : Nat) : Option Nat :=
  ((List.range (m.ehdr self.ehdr).e_phnum).find? (fun i =>
      (m.phdr (self.phdr + SIZEOF_PHDR * i)).p_type == PT_LOAD &&
        decide (PAGE_START ((self.bias_addr + (m.phdr (self.phdr + SIZEOF_PHDR * i)).p_vaddr) %
          WORD_MOD) ≤ addr) &&
        decide (addr < PAGE_END (((self.bias_addr +
          (m.phdr (self.phdr + SIZEOF_PHDR * i)).p_vaddr) % WORD_MOD +
          (m.phdr (self.phdr + SIZEOF_PHDR * i)).p_memsz) % WORD_MOD)))).map
    (fun i => (m.phdr (self.phdr + SIZEOF_PHDR * i)).p_flags)

/-- `xh_elf_set_mem_access`: `mprotect(PAGE_START(addr), PAGE_SIZE,
PF_TO_PROT(prots))`, modelled as an always-successful protection update of
the single page containing `addr`. -/
def xh_elf_set_mem_access (st : HookSt) (addr : Nat) (prots : Nat) : HookSt :=
  { st with prot := fun pg => if pg = PAGE_START addr then PF_TO_PROT prots else st.prot pg }

/-- `xh_elf_replace_function`: skip if the slot already holds `new_func`;
otherwise widen the page protections (`|= PF_W`, `&= ~PF_X`), save the old
word through the optional out-parameter, and overwrite the slot
(`xh_elf_clear_cache` is a no-op on LP64). -/
def xh_elf_replace_function (m : Mem) (self : XhElf) (st : HookSt) (addr : Nat)
    (new_func : Nat) (old_func : Option Nat) : Nat × HookSt × Option Nat :=
  if st.mem addr = new_func then (0, st, old_func)
  else
    match xh_elf_get_mem_access m self addr with
    | none => (XH_ERRNO_NOTFND, st, old_func)
    | some prots =>
      let st := xh_elf_set_mem_access st addr ((prots ||| PF_W) &&& (0xffffffff ^^^ PF_X))
      let old_addr := st.mem addr
      (0, { st with mem := fun a => if a = addr then new_func else st.mem a },
        match old_func with | none => none | some _ => some old_addr)

/-- The `r_info`/`r_offset` extraction of `xh_elf_find_and_replace_func`:
`rel_common` is read as `ElfW(Rela)*` or `ElfW(Rel)*` according to
`is_use_rela` (the two layouts share the `r_offset`/`r_info` prefix). -/
def farInfoOffset (m : Mem) (self : XhElf) (rc : RelCommon) : Nat × Nat :=
  if self.is_use_rela then
    match rc with
    | .addr a => ((m.rela a).r_info, (m.rela a).r_offset)
    | .rela r => (r.r_info, r.r_offset)
    | .rel r => (r.r_info, r.r_offset)
  else
    match rc with
    | .addr a => ((m.rel a).r_info, (m.rel a).r_offset)
    | .rela r => (r.r_info, r.r_offset)
    | .rel r => (r.r_info, r.r_offset)

/-- The match test of `xh_elf_find_and_replace_func`: the record's symbol
index equals `symidx` and its type is `JUMP_SLOT`, `GLOB_DAT` or `ABS64`. -/
def farMatched (m : Mem) (self : XhElf) (symidx : Nat) (rc : RelCommon) : Prop :=
  elf_r_sym (farInfoOffset m self rc).1 = symidx ∧
    (elf_r_type (farInfoOffset m self rc).1 = R_GENERIC_JUMP_SLOT ∨
      elf_r_type (farInfoOffset m self rc).1 = R_GENERIC_GLOB_DAT ∨
      elf_r_type (farInfoOffset m self rc).1 = R_GENERIC_ABS)

instance farMatchedDec (m : Mem) (self : XhElf) (symidx : Nat) (rc : RelCommon) :
    Decidable (farMatched m self symidx rc) := by
  unfold farMatched
  infer_instance

/-- The GOT slot of a matching record: `bias_addr + r_offset`. -/
def farSlot (m : Mem) (self : XhElf) (rc : RelCommon) : Nat :=
  (self.bias_addr + (farInfoOffset m self rc).2) % WORD_MOD

/-- Result of `xh_elf_find_and_replace_func`: status, updated state, updated
out-parameter cell, and the `*found` flag (meaningful when the caller passed
a non-NULL `found`, i.e. `wantFound`). -/
structure FRes where
  r : Nat
  st : HookSt
  old : Option Nat
  found : Bool

/-- `xh_elf_find_and_replace_func`. -/
def xh_elf_find_and_replace_func (m : Mem) (self : XhElf) (st : HookSt)
    (new_func : Nat) (old_func : Option Nat) (symidx : Nat) (rc : RelCommon)
    (wantFound : Bool) : FRes :=
  if farMatched m self symidx rc then
    let rep := xh_elf_replace_function m self st (farSlot m self rc) new_func old_func
    ⟨rep.1, rep.2.1, rep.2.2, wantFound⟩
  else ⟨0, st, old_func, false⟩

/-- The `.rel(a).plt` walk of `xh_elf_hook`: short-circuits on the first
matching record (`if(found) break`). -/
def hook_plt_loop (m : Mem) (self : XhElf) (new_func : Nat) (symidx : Nat) :
    Nat → PlainIter → HookSt → Option Nat → Option (Nat × HookSt × Option Nat)
  | 0, _, _, _ => none
  | fuel + 1, it, st, old =>
    match xh_elf_plain_reloc_iterator_next it with
    | none => some (0, st, old)
    | some (ptr, it') =>
      let res := xh_elf_find_and_replace_func m self st new_func old symidx
        (.addr ptr) true
      if res.r ≠ 0 then some (res.r, res.st, res.old)
      else if res.found then some (0, res.st, res.old)
      else hook_plt_loop m self new_func symidx fuel it' res.st res.old

/-- The `.rel(a).dyn` walk of `xh_elf_hook`: every record is visited
(`found` is passed as `NULL`). -/
def hook_dyn_loop (m : Mem) (self : XhElf) (new_func : Nat) (symidx : Nat) :
    Nat → PlainIter → HookSt → Option Nat → Option (Nat × HookSt × Option Nat)
  | 0, _, _, _ => none
  | fuel + 1, it, st, old =>
    match xh_elf_plain_reloc_iterator_next it with
    | none => some (0, st, old)
    | some (ptr, it') =>
      let res := xh_elf_find_and_replace_func m self st new_func old symidx
        (.addr ptr) false
      if res.r ≠ 0 then some (res.r, res.st, res.old)
      else hook_dyn_loop m self new_func symidx fuel it' res.st res.old

/-- The `.rel(a).android` walk of `xh_elf_hook` over the packed iterator. -/
def hook_android_loop (m : Mem) (self : XhElf) (new_func : Nat) (symidx : Nat) :
    Nat → PackedIter → HookSt → Option Nat → Option (Nat × HookSt × Option Nat)
  | 0, _, _, _ => none
  | fuel + 1, it, st, old =>
    match xh_elf_packed_reloc_iterator_next it with
    | none => some (0, st, old)
    | some (rc, it') =>
      let res := xh_elf_find_and_replace_func m self st new_func old symidx rc false
      if res.r ≠ 0 then some (res.r, res.st, res.old)
      else hook_android_loop m self new_func symidx fuel it' res.st res.old

/-- The byte contents of `[addr, addr + len)`, as handed to the SLEB128
decoder for the Android packed region. -/
def memBytes (m : Mem) (addr len : Nat) : List Nat :=
  (List.range len).map (fun i => m.byte (addr + i))

/-- The PLT region step of `xh_elf_hook` (`if(0 != self->relplt)`). -/
def hook_plt_stage (m : Mem) (self : XhElf) (new_func : Nat) (symidx fuel : Nat)
    (st : HookSt) (old : Option Nat) : Option (Nat × HookSt × Option Nat) :=
  if self.relplt ≠ 0 then
    hook_plt_loop m self new_func symidx fuel
      (xh_elf_plain_reloc_iterator_init self.relplt self.relplt_sz self.is_use_rela) st old
  else some (0, st, old)

/-- The DYN region step of `xh_elf_hook` (`if(0 != self->reldyn)`). -/
def hook_dyn_stage (m : Mem) (self : XhElf) (new_func : Nat) (symidx fuel : Nat)
    (st : HookSt) (old : Option Nat) : Option (Nat × HookSt × Option Nat) :=
  if self.reldyn ≠ 0 then
    hook_dyn_loop m self new_func symidx fuel
      (xh_elf_plain_reloc_iterator_init self.reldyn self.reldyn_sz self.is_use_rela) st old
  else some (0, st, old)

/-- The ANDROID region step of `xh_elf_hook` (`if(0 != self->relandroid)`);
the packed-iterator init status is ignored, as in the source. -/
def hook_android_stage (m : Mem) (self : XhElf) (new_func : Nat) (symidx fuel : Nat)
    (st : HookSt) (old : Option Nat) : Option (Nat × HookSt × Option Nat) :=
  if self.relandroid ≠ 0 then
    hook_android_loop m self new_func symidx fuel
      (xh_elf_packed_reloc_iterator_init
        (memBytes m self.relandroid self.relandroid_sz) self.is_use_rela).2 st old
  else some (0, st, old)

/-- `xh_elf_hook`: init guard, null-argument guard, symbol resolution, then
the PLT, DYN and ANDROID walks in source order, each propagating a nonzero
status immediately. -/
def xh_elf_hook (fuel : Nat) (m : Mem) (self : XhElf) (st : HookSt)
    (symbol : Option (List Nat)) (new_func : Nat) (old_func : Option Nat) :
    Option (Nat × HookSt × Option Nat) :=
  if self.pathname = none then some (XH_ERRNO_ELFINIT, st, old_func)
  else if symbol = none ∨ new_func = 0 then some (XH_ERRNO_INVAL, st, old_func)
  else
    match xh_elf_find_symidx_by_name fuel m self (symbol.getD []) with
    | none => none
    | some none => some (XH_ERRNO_NOTFND, st, old_func)
    | some (some symidx) =>
      match hook_plt_stage m self new_func symidx fuel st old_func with
      | none => none
      | some res1 =>
        if res1.1 ≠ 0 then some res1
        else
          match hook_dyn_stage m self new_func symidx fuel res1.2.1 res1.2.2 with
          | none => none
          | some res2 =>
            if res2.1 ≠ 0 then some res2
            else hook_android_stage m self new_func symidx fuel res2.2.1 res2.2.2

/-!
### Facts about `xh_elf_replace_function` and `xh_elf_find_and_replace_func`

Used for C3 (idempotency): the skip path leaves everything untouched, a
write changes only the target slot (to `new_func`), and a successful call
leaves the slot holding `new_func`.
-/

theorem replace_skip (m : Mem) (self : XhElf) (st : HookSt) (addr new : Nat)
    (old : Option Nat) (h : st.mem addr = new) :
    xh_elf_replace_function m self st addr new old = (0, st, old) := by
  unfold xh_elf_replace_function
  rw [if_pos h]

theorem replace_mem_frame (m : Mem) (self : XhElf) (st : HookSt) (addr new : Nat)
    (old : Option Nat) :
    ∀ a, a ≠ addr →
      (xh_elf_replace_function m self st addr new old).2.1.mem a = st.mem a := by
  intro a ha
  unfold xh_elf_replace_function xh_elf_set_mem_access
  split
  · rfl
  · split
    · rfl
    · simp [ha]

theorem replace_mem_evolution (m : Mem) (self : XhElf) (st : HookSt) (addr new : Nat)
    (old : Option Nat) :
    ∀ a, (xh_elf_replace_function m self st addr new old).2.1.mem a = st.mem a ∨
      (xh_elf_replace_function m self st addr new old).2.1.mem a = new := by
  intro a
  unfold xh_elf_replace_function xh_elf_set_mem_access
  split
  · exact Or.inl rfl
  · split
    · exact Or.inl rfl
    · by_cases ha : a = addr
      · subst ha
        right
        simp
      · left
        simp [ha]

theorem replace_success_mem (m : Mem) (self : XhElf) (st : HookSt) (addr new : Nat)
    (old : Option Nat)
    (h : (xh_elf_replace_function m self st addr new old).1 = 0) :
    (xh_elf_replace_function m self st addr new old).2.1.mem addr = new := by
  by_cases hskip : st.mem addr = new
  · rw [replace_skip m self st addr new old hskip]
    exact hskip
  · unfold xh_elf_replace_function at h ⊢
    rw [if_neg hskip] at h ⊢
    rcases hacc : xh_elf_get_mem_access m self addr with _ | prots
    · rw [hacc] at h
      exact absurd h (by simp [XH_ERRNO_NOTFND])
    · simp [xh_elf_set_mem_access]

theorem far_unmatched (m : Mem) (self : XhElf) (st : HookSt) (new : Nat)
    (old : Option Nat) (symidx : Nat) (rc : RelCommon) (w : Bool)
    (h : ¬farMatched m self symidx rc) :
    xh_elf_find_and_replace_func m self st new old symidx rc w = ⟨0, st, old, false⟩ := by
  unfold xh_elf_find_and_replace_func
  rw [if_neg h]

theorem far_matched_skip (m : Mem) (self : XhElf) (st : HookSt) (new : Nat)
    (old : Option Nat) (symidx : Nat) (rc : RelCommon) (w : Bool)
    (hm : farMatched m self symidx rc) (h : st.mem (farSlot m self rc) = new) :
    xh_elf_find_and_replace_func m self st new old symidx rc w = ⟨0, st, old, w⟩ := by
  unfold xh_elf_find_and_replace_func
  rw [if_pos hm, replace_skip m self st _ new old h]

theorem far_mem_evolution (m : Mem) (self : XhElf) (st : HookSt) (new : Nat)
    (old : Option Nat) (symidx : Nat) (rc : RelCommon) (w : Bool) :
    ∀ a, (xh_elf_find_and_replace_func m self st new old symidx rc w).st.mem a =
        st.mem a ∨
      (xh_elf_find_and_replace_func m self st new old symidx rc w).st.mem a = new := by
  intro a
  unfold xh_elf_find_and_replace_func
  split
  · exact replace_mem_evolution m self st _ new old a
  · exact Or.inl rfl

theorem far_mem_frame (m : Mem) (self : XhElf) (st : HookSt) (new : Nat)
    (old : Option Nat) (symidx : Nat) (rc : RelCommon) (w : Bool) :
    ∀ a, a ≠ farSlot m self rc →
      (xh_elf_find_and_replace_func m self st new old symidx rc w).st.mem a =
        st.mem a := by
  intro a ha
  unfold xh_elf_find_and_replace_func
  split
  · exact replace_mem_frame m self st _ new old a ha
  · rfl

theorem far_success_matched_mem (m : Mem) (self : XhElf) (st : HookSt) (new : Nat)
    (old : Option Nat) (symidx : Nat) (rc : RelCommon) (w : Bool)
    (hm : farMatched m self symidx rc)
    (h : (xh_elf_find_and_replace_func m self st new old symidx rc w).r = 0) :
    (xh_elf_find_and_replace_func m self st new old symidx rc w).st.mem
      (farSlot m self rc) = new := by
  unfold xh_elf_find_and_replace_func at h ⊢
  rw [if_pos hm] at h ⊢
  exact replace_success_mem m self st _ new old h

theorem far_matched_parts (m : Mem) (self : XhElf) (st : HookSt) (new : Nat)
    (old : Option Nat) (symidx : Nat) (rc : RelCommon) (w : Bool)
    (hm : farMatched m self symidx rc) :
    (xh_elf_find_and_replace_func m self st new old symidx rc w).found = w := by
  unfold xh_elf_find_and_replace_func
  rw [if_pos hm]

/-!
### Loop-level facts for C3

`*_evolution`: a relocation walk only ever writes `new_func` into slots, so
every memory cell ends as it began or holding `new_func`.  `*_rerun`: a walk
re-run from a state in which every slot it matched already holds `new_func`
takes the skip path everywhere — it returns status `0` and leaves the state
and the out-parameter cell untouched.
-/

theorem hook_plt_loop_evolution (m : Mem) (self : XhElf) (new symidx : Nat) :
    ∀ fuel it st old r st' old',
      hook_plt_loop m self new symidx fuel it st old = some (r, st', old') →
      ∀ a, st'.mem a = st.mem a ∨ st'.mem a = new := by
  intro fuel
  induction fuel with
  | zero => intro it st old r st' old' h; cases h
  | succ fuel ih =>
    intro it st old r st' old' h a
    unfold hook_plt_loop at h
    split at h
    · simp only [Option.some.injEq, Prod.mk.injEq] at h
      obtain ⟨-, rfl, -⟩ := h
      exact Or.inl rfl
    · next ptr it' heq =>
      simp only [] at h
      split at h
      · simp only [Option.some.injEq, Prod.mk.injEq] at h
        obtain ⟨-, rfl, -⟩ := h
        exact far_mem_evolution m self st new old symidx (.addr ptr) true a
      · split at h
        · simp only [Option.some.injEq, Prod.mk.injEq] at h
          obtain ⟨-, rfl, -⟩ := h
          exact far_mem_evolution m self st new old symidx (.addr ptr) true a
        · rcases ih _ _ _ _ _ _ h a with h1 | h1
          · rcases far_mem_evolution m self st new old symidx (.addr ptr) true a with h2 | h2
            · exact Or.inl (h1.trans h2)
            · exact Or.inr (h1.trans h2)
          · exact Or.inr h1

theorem hook_dyn_loop_evolution (m : Mem) (self : XhElf) (new symidx : Nat) :
    ∀ fuel it st old r st' old',
      hook_dyn_loop m self new symidx fuel it st old = some (r, st', old') →
      ∀ a, st'.mem a = st.mem a ∨ st'.mem a = new := by
  intro fuel
  induction fuel with
  | zero => intro it st old r st' old' h; cases h
  | succ fuel ih =>
    intro it st old r st' old' h a
    unfold hook_dyn_loop at h
    split at h
    · simp only [Option.some.injEq, Prod.mk.injEq] at h
      obtain ⟨-, rfl, -⟩ := h
      exact Or.inl rfl
    · next ptr it' heq =>
      simp only [] at h
      split at h
      · simp only [Option.some.injEq, Prod.mk.injEq] at h
        obtain ⟨-, rfl, -⟩ := h
        exact far_mem_evolution m self st new old symidx (.addr ptr) false a
      · rcases ih _ _ _ _ _ _ h a with h1 | h1
        · rcases far_mem_evolution m self st new old symidx (.addr ptr) false a with h2 | h2
          · exact Or.inl (h1.trans h2)
          · exact Or.inr (h1.trans h2)
        · exact Or.inr h1

theorem hook_android_loop_evolution (m : Mem) (self : XhElf) (new symidx : Nat) :
    ∀ fuel it st old r st' old',
      hook_android_loop m self new symidx fuel it st old = some (r, st', old') →
      ∀ a, st'.mem a = st.mem a ∨ st'.mem a = new := by
  intro fuel
  induction fuel with
  | zero => intro it st old r st' old' h; cases h
  | succ fuel ih =>
    intro it st old r st' old' h a
    unfold hook_android_loop at h
    split at h
    · simp only [Option.some.injEq, Prod.mk.injEq] at h
      obtain ⟨-, rfl, -⟩ := h
      exact Or.inl rfl
    · next rc it' heq =>
      simp only [] at h
      split at h
      · simp only [Option.some.injEq, Prod.mk.injEq] at h
        obtain ⟨-, rfl, -⟩ := h
        exact far_mem_evolution m self st new old symidx rc false a
      · rcases ih _ _ _ _ _ _ h a with h1 | h1
        · rcases far_mem_evolution m self st new old symidx rc false a with h2 | h2
          · exact Or.inl (h1.trans h2)
          · exact Or.inr (h1.trans h2)
        · exact Or.inr h1

theorem hook_plt_loop_rerun (m : Mem) (self : XhElf) (new symidx : Nat) :
    ∀ fuel it st old st' old' (st2 : HookSt) (old2 : Option Nat),
      hook_plt_loop m self new symidx fuel it st old = some (0, st', old') →
      (∀ a, st2.mem a = st.mem a ∨ st2.mem a = new) →
      (∀ a, st'.mem a = new → st2.mem a = new) →
      hook_plt_loop m self new symidx fuel it st2 old2 = some (0, st2, old2) := by
  intro fuel
  induction fuel with
  | zero => intro it st old st' old' st2 old2 h; cases h
  | succ fuel ih =>
    intro it st old st' old' st2 old2 h h2 h3
    unfold hook_plt_loop at h ⊢
    rcases hnext : xh_elf_plain_reloc_iterator_next it with _ | ⟨ptr, it'⟩
    · rfl
    · rw [hnext] at h
      simp only [] at h ⊢
      by_cases hm : farMatched m self symidx (.addr ptr)
      · by_cases hsk : st.mem (farSlot m self (.addr ptr)) = new
        · rw [far_matched_skip m self st new old symidx (.addr ptr) true hm hsk] at h
          simp only [ne_eq, not_true_eq_false, if_false, if_pos rfl, ite_true,
            reduceIte] at h
          simp only [Option.some.injEq, Prod.mk.injEq] at h
          obtain ⟨-, rfl, -⟩ := h
          have hsk2 : st2.mem (farSlot m self (.addr ptr)) = new := h3 _ hsk
          rw [far_matched_skip m self st2 new old2 symidx (.addr ptr) true hm hsk2]
          simp
        · by_cases hFr :
            (xh_elf_find_and_replace_func m self st new old symidx (.addr ptr) true).r ≠ 0
          · rw [if_pos hFr] at h
            simp only [Option.some.injEq, Prod.mk.injEq] at h
            exact absurd h.1 hFr
          · push_neg at hFr
            rw [if_neg (by simp [hFr])] at h
            rw [if_pos (by rw [far_matched_parts m self st new old symidx (.addr ptr)
              true hm])] at h
            simp only [Option.some.injEq, Prod.mk.injEq] at h
            obtain ⟨-, rfl, -⟩ := h
            have hnew := far_success_matched_mem m self st new old symidx (.addr ptr)
              true hm hFr
            have hsk2 : st2.mem (farSlot m self (.addr ptr)) = new := h3 _ hnew
            rw [far_matched_skip m self st2 new old2 symidx (.addr ptr) true hm hsk2]
            simp
      · rw [far_unmatched m self st new old symidx (.addr ptr) true hm] at h
        simp only [ne_eq, not_true_eq_false, ite_false, ite_true, reduceIte,
          Bool.false_eq_true, if_false] at h
        rw [far_unmatched m self st2 new old2 symidx (.addr ptr) true hm]
        simp only [ne_eq, not_true_eq_false, ite_false, ite_true, reduceIte,
          Bool.false_eq_true, if_false]
        exact ih it' st old st' old' st2 old2 h h2 h3

theorem hook_dyn_loop_rerun (m : Mem) (self : XhElf) (new symidx : Nat) :
    ∀ fuel it st old st' old' (st2 : HookSt) (old2 : Option Nat),
      hook_dyn_loop m self new symidx fuel it st old = some (0, st', old') →
      (∀ a, st2.mem a = st.mem a ∨ st2.mem a = new) →
      (∀ a, st'.mem a = new → st2.mem a = new) →
      hook_dyn_loop m self new symidx fuel it st2 old2 = some (0, st2, old2) := by
  intro fuel
  induction fuel with
  | zero => intro it st old st' old' st2 old2 h; cases h
  | succ fuel ih =>
    intro it st old st' old' st2 old2 h h2 h3
    unfold hook_dyn_loop at h ⊢
    rcases hnext : xh_elf_plain_reloc_iterator_next it with _ | ⟨ptr, it'⟩
    · rfl
    · rw [hnext] at h
      simp only [] at h ⊢
      by_cases hm : farMatched m self symidx (.addr ptr)
      · by_cases hsk : st.mem (farSlot m self (.addr ptr)) = new
        · rw [far_matched_skip m self st new old symidx (.addr ptr) false hm hsk] at h
          simp only [ne_eq, not_true_eq_false, if_false, ite_true, reduceIte] at h
          have hslot : st'.mem (farSlot m self (.addr ptr)) = new := by
            rcases hook_dyn_loop_evolution m self new symidx fuel it' st old 0 st' old' h
              (farSlot m self (.addr ptr)) with h1 | h1
            · exact h1.trans hsk
            · exact h1
          have hsk2 : st2.mem (farSlot m self (.addr ptr)) = new := h3 _ hslot
          rw [far_matched_skip m self st2 new old2 symidx (.addr ptr) false hm hsk2]
          simp only [ne_eq, not_true_eq_false, if_false, ite_true, reduceIte]
          exact ih it' st old st' old' st2 old2 h h2 h3
        · by_cases hFr :
            (xh_elf_find_and_replace_func m self st new old symidx (.addr ptr) false).r ≠ 0
          · rw [if_pos hFr] at h
            simp only [Option.some.injEq, Prod.mk.injEq] at h
            exact absurd h.1 hFr
          · push_neg at hFr
            rw [if_neg (by simp [hFr])] at h
            have hFnew := far_success_matched_mem m self st new old symidx (.addr ptr)
              false hm hFr
            have hslot : st'.mem (farSlot m self (.addr ptr)) = new := by
              rcases hook_dyn_loop_evolution m self new symidx fuel it' _ _ 0 st' old' h
                (farSlot m self (.addr ptr)) with h1 | h1
              · exact h1.trans hFnew
              · exact h1
            have hsk2 : st2.mem (farSlot m self (.addr ptr)) = new := h3 _ hslot
            rw [far_matched_skip m self st2 new old2 symidx (.addr ptr) false hm hsk2]
            simp only [ne_eq, not_true_eq_false, if_false, ite_true, reduceIte]
            refine ih it' _ _ st' old' st2 old2 h ?_ h3
            intro a
            by_cases ha : a = farSlot m self (.addr ptr)
            · subst ha
              exact Or.inr hsk2
            · rw [far_mem_frame m self st new old symidx (.addr ptr) false a ha]
              exact h2 a
      · rw [far_unmatched m self st new old symidx (.addr ptr) false hm] at h
        simp only [ne_eq, not_true_eq_false, if_false, ite_true, reduceIte] at h
        rw [far_unmatched m self st2 new old2 symidx (.addr ptr) false hm]
        simp only [ne_eq, not_true_eq_false, if_false, ite_true, reduceIte]
        exact ih it' st old st' old' st2 old2 h h2 h3

theorem hook_android_loop_rerun (m : Mem) (self : XhElf) (new symidx : Nat) :
    ∀ fuel it st old st' old' (st2 : HookSt) (old2 : Option Nat),
      hook_android_loop m self new symidx fuel it st old = some (0, st', old') →
      (∀ a, st2.mem a = st.mem a ∨ st2.mem a = new) →
      (∀ a, st'.mem a = new → st2.mem a = new) →
      hook_android_loop m self new symidx fuel it st2 old2 = some (0, st2, old2) := by
  intro fuel
  induction fuel with
  | zero => intro it st old st' old' st2 old2 h; cases h
  | succ fuel ih =>
    intro it st old st' old' st2 old2 h h2 h3
    unfold hook_android_loop at h ⊢
    rcases hnext : xh_elf_packed_reloc_iterator_next it with _ | ⟨rc, it'⟩
    · rfl
    · rw [hnext] at h
      simp only [] at h ⊢
      by_cases hm : farMatched m self symidx rc
      · by_cases hsk : st.mem (farSlot m self rc) = new
        · rw [far_matched_skip m self st new old symidx rc false hm hsk] at h
          simp only [ne_eq, not_true_eq_false, if_false, ite_true, reduceIte] at h
          have hslot : st'.mem (farSlot m self rc) = new := by
            rcases hook_android_loop_evolution m self new symidx fuel it' st old 0 st' old' h
              (farSlot m self rc) with h1 | h1
            · exact h1.trans hsk
            · exact h1
          have hsk2 : st2.mem (farSlot m self rc) = new := h3 _ hslot
          rw [far_matched_skip m self st2 new old2 symidx rc false hm hsk2]
          simp only [ne_eq, not_true_eq_false, if_false, ite_true, reduceIte]
          exact ih it' st old st' old' st2 old2 h h2 h3
        · by_cases hFr :
            (xh_elf_find_and_replace_func m self st new old symidx rc false).r ≠ 0
          · rw [if_pos hFr] at h
            simp only [Option.some.injEq, Prod.mk.injEq] at h
            exact absurd h.1 hFr
          · push_neg at hFr
            rw [if_neg (by simp [hFr])] at h
            have hFnew := far_success_matched_mem m self st new old symidx rc false hm hFr
            have hslot : st'.mem (farSlot m self rc) = new := by
              rcases hook_android_loop_evolution m self new symidx fuel it' _ _ 0 st' old' h
                (farSlot m self rc) with h1 | h1
              · exact h1.trans hFnew
              · exact h1
            have hsk2 : st2.mem (farSlot m self rc) = new := h3 _ hslot
            rw [far_matched_skip m self st2 new old2 symidx rc false hm hsk2]
            simp only [ne_eq, not_true_eq_false, if_false, ite_true, reduceIte]
            refine ih it' _ _ st' old' st2 old2 h ?_ h3
            intro a
            by_cases ha : a = farSlot m self rc
            · subst ha
              exact Or.inr hsk2
            · rw [far_mem_frame m self st new old symidx rc false a ha]
              exact h2 a
      · rw [far_unmatched m self st new old symidx rc false hm] at h
        simp only [ne_eq, not_true_eq_false, if_false, ite_true, reduceIte] at h
        rw [far_unmatched m self st2 new old2 symidx rc false hm]
        simp only [ne_eq, not_true_eq_false, if_false, ite_true, reduceIte]
        exact ih it' st old st' old' st2 old2 h h2 h3

theorem hook_plt_stage_evolution (m : Mem) (self : XhElf) (new symidx fuel : Nat)
    {st : HookSt} {old : Option Nat} {r : Nat} {st' : HookSt} {old' : Option Nat}
    (h : hook_plt_stage m self new symidx fuel st old = some (r, st', old')) :
    ∀ a, st'.mem a = st.mem a ∨ st'.mem a = new := by
  unfold hook_plt_stage at h
  split at h
  · exact hook_plt_loop_evolution m self new symidx fuel _ st old r st' old' h
  · simp only [Option.some.injEq, Prod.mk.injEq] at h
    obtain ⟨-, rfl, -⟩ := h
    exact fun a => Or.inl rfl

theorem hook_dyn_stage_evolution (m : Mem) (self : XhElf) (new symidx fuel : Nat)
    {st : HookSt} {old : Option Nat} {r : Nat} {st' : HookSt} {old' : Option Nat}
    (h : hook_dyn_stage m self new symidx fuel st old = some (r, st', old')) :
    ∀ a, st'.mem a = st.mem a ∨ st'.mem a = new := by
  unfold hook_dyn_stage at h
  split at h
  · exact hook_dyn_loop_evolution m self new symidx fuel _ st old r st' old' h
  · simp only [Option.some.injEq, Prod.mk.injEq] at h
    obtain ⟨-, rfl, -⟩ := h
    exact fun a => Or.inl rfl

theorem hook_android_stage_evolution (m : Mem) (self : XhElf) (new symidx fuel : Nat)
    {st : HookSt} {old : Option Nat} {r : Nat} {st' : HookSt} {old' : Option Nat}
    (h : hook_android_stage m self new symidx fuel st old = some (r, st', old')) :
    ∀ a, st'.mem a = st.mem a ∨ st'.mem a = new := by
  unfold hook_android_stage at h
  split at h
  · exact hook_android_loop_evolution m self new symidx fuel _ st old r st' old' h
  · simp only [Option.some.injEq, Prod.mk.injEq] at h
    obtain ⟨-, rfl, -⟩ := h
    exact fun a => Or.inl rfl

theorem hook_plt_stage_rerun (m : Mem) (self : XhElf) (new symidx fuel : Nat)
    {st : HookSt} {old : Option Nat} {st' : HookSt} {old' : Option Nat}
    (st2 : HookSt) (old2 : Option Nat)
    (h : hook_plt_stage m self new symidx fuel st old = some (0, st', old'))
    (h2 : ∀ a, st2.mem a = st.mem a ∨ st2.mem a = new)
    (h3 : ∀ a, st'.mem a = new → st2.mem a = new) :
    hook_plt_stage m self new symidx fuel st2 old2 = some (0, st2, old2) := by
  unfold hook_plt_stage at h ⊢
  split at h
  · next hc =>
    rw [if_pos hc]
    exact hook_plt_loop_rerun m self new symidx fuel _ st old st' old' st2 old2 h h2 h3
  · next hc =>
    rw [if_neg hc]

theorem hook_dyn_stage_rerun (m : Mem) (self : XhElf) (new symidx fuel : Nat)
    {st : HookSt} {old : Option Nat} {st' : HookSt} {old' : Option Nat}
    (st2 : HookSt) (old2 : Option Nat)
    (h : hook_dyn_stage m self new symidx fuel st old = some (0, st', old'))
    (h2 : ∀ a, st2.mem a = st.mem a ∨ st2.mem a = new)
    (h3 : ∀ a, st'.mem a = new → st2.mem a = new) :
    hook_dyn_stage m self new symidx fuel st2 old2 = some (0, st2, old2) := by
  unfold hook_dyn_stage at h ⊢
  split at h
  · next hc =>
    rw [if_pos hc]
    exact hook_dyn_loop_rerun m self new symidx fuel _ st old st' old' st2 old2 h h2 h3
  · next hc =>
    rw [if_neg hc]

theorem hook_android_stage_rerun (m : Mem) (self : XhElf) (new symidx fuel : Nat)
    {st : HookSt} {old : Option Nat} {st' : HookSt} {old' : Option Nat}
    (st2 : HookSt) (old2 : Option Nat)
    (h : hook_android_stage m self new symidx fuel st old = some (0, st', old'))
    (h2 : ∀ a, st2.mem a = st.mem a ∨ st2.mem a = new)
    (h3 : ∀ a, st'.mem a = new → st2.mem a = new) :
    hook_android_stage m self new symidx fuel st2 old2 = some (0, st2, old2) := by
  unfold hook_android_stage at h ⊢
  split at h
  · next hc =>
    rw [if_pos hc]
    exact hook_android_loop_rerun m self new symidx fuel _ st old st' old' st2 old2 h h2 h3
  · next hc =>
    rw [if_neg hc]

/-- C3 (amended): if `hook(v, s, f, &old1)` completed with status `0`
leaving state `st1`, then a second `hook(v, s, f, &old2)` from `st1` returns
status `0`, leaves the GOT slots and page protections exactly `st1` (every
matching slot already holds `f` and is skipped without error), and leaves
the caller's out-parameter cell `old2` untouched — the already-hooked skip
path returns before the old-value store, so `old2 = f` does *not* hold
unless the caller pre-set it. -/
theorem C3_hook_idempotent (fuel : Nat) (m : Mem) (self : XhElf) (st : HookSt)
    (symbol : Option (List Nat)) (new_func : Nat) (old1 old2 : Option Nat)
    (st1 : HookSt) (old1' : Option Nat)
    (h : xh_elf_hook fuel m self st symbol new_func old1 = some (0, st1, old1')) :
    xh_elf_hook fuel m self st1 symbol new_func old2 = some (0, st1, old2) := by
  unfold xh_elf_hook at h ⊢
  split at h
  · simp only [Option.some.injEq, Prod.mk.injEq] at h
    exact absurd h.1 (by simp [XH_ERRNO_ELFINIT])
  · next hpath =>
    rw [if_neg hpath]
    split at h
    · simp only [Option.some.injEq, Prod.mk.injEq] at h
      exact absurd h.1 (by simp [XH_ERRNO_INVAL])
    · next hargs =>
      rw [if_neg hargs]
      rcases hsym : xh_elf_find_symidx_by_name fuel m self (symbol.getD []) with
        _ | _ | symidx
      · rw [hsym] at h
        simp only [] at h
        cases h
      · rw [hsym] at h
        simp only [Option.some.injEq, Prod.mk.injEq] at h
        exact absurd h.1 (by simp [XH_ERRNO_NOTFND])
      · rw [hsym] at h
        simp only [] at h ⊢
        rcases hplt : hook_plt_stage m self new_func symidx fuel st old1 with _ | res1
        · rw [hplt] at h
          simp only [] at h
          cases h
        · rw [hplt] at h
          simp only [] at h
          by_cases hr1 : res1.1 ≠ 0
          · rw [if_pos hr1] at h
            simp only [Option.some.injEq] at h
            rw [h] at hr1
            exact absurd rfl hr1
          · push_neg at hr1
            rw [if_neg (by simp [hr1])] at h
            rcases hdyn : hook_dyn_stage m self new_func symidx fuel res1.2.1 res1.2.2 with
              _ | res2
            · rw [hdyn] at h
              simp only [] at h
              cases h
            · rw [hdyn] at h
              simp only [] at h
              by_cases hr2 : res2.1 ≠ 0
              · rw [if_pos hr2] at h
                simp only [Option.some.injEq] at h
                rw [h] at hr2
                exact absurd rfl hr2
              · push_neg at hr2
                rw [if_neg (by simp [hr2])] at h
                -- run 1 decomposition is complete:
                --   plt: st → res1.2.1, dyn: → res2.2.1, android: → st1
                have hplt' : hook_plt_stage m self new_func symidx fuel st old1 =
                    some (0, res1.2.1, res1.2.2) := by
                  rw [hplt, ← hr1]
                have hdyn' : hook_dyn_stage m self new_func symidx fuel res1.2.1 res1.2.2 =
                    some (0, res2.2.1, res2.2.2) := by
                  rw [hdyn, ← hr2]
                have eA := hook_plt_stage_evolution m self new_func symidx fuel hplt'
                have eB := hook_dyn_stage_evolution m self new_func symidx fuel hdyn'
                have eC := hook_android_stage_evolution m self new_func symidx fuel h
                -- st1 only ever differs from earlier states by holding new_func
                have hBC : ∀ a, st1.mem a = res1.2.1.mem a ∨ st1.mem a = new_func := by
                  intro a
                  rcases eC a with h1 | h1
                  · rcases eB a with hb | hb
                    · exact Or.inl (h1.trans hb)
                    · exact Or.inr (h1.trans hb)
                  · exact Or.inr h1
                have hABC : ∀ a, st1.mem a = st.mem a ∨ st1.mem a = new_func := by
                  intro a
                  rcases hBC a with h1 | h1
                  · rcases eA a with ha | ha
                    · exact Or.inl (h1.trans ha)
                    · exact Or.inr (h1.trans ha)
                  · exact Or.inr h1
                have hC : ∀ a, st1.mem a = res2.2.1.mem a ∨ st1.mem a = new_func := eC
                -- re-run each stage from st1
                have rA : hook_plt_stage m self new_func symidx fuel st1 old2 =
                    some (0, st1, old2) := by
                  refine hook_plt_stage_rerun m self new_func symidx fuel st1 old2 hplt'
                    hABC ?_
                  intro a ha
                  rcases eB a with hb | hb
                  · rcases eC a with hc | hc
                    · exact hc.trans (hb.trans ha)
                    · exact hc
                  · rcases eC a with hc | hc
                    · exact hc.trans hb
                    · exact hc
                have rB : hook_dyn_stage m self new_func symidx fuel st1 old2 =
                    some (0, st1, old2) := by
                  refine hook_dyn_stage_rerun m self new_func symidx fuel st1 old2 hdyn'
                    hBC ?_
                  intro a ha
                  rcases eC a with hc | hc
                  · exact hc.trans ha
                  · exact hc
                have rC : hook_android_stage m self new_func symidx fuel st1 old2 =
                    some (0, st1, old2) := by
                  exact hook_android_stage_rerun m self new_func symidx fuel st1 old2 h
                    hC (fun a ha => ha)
                rw [rA]
                simp only [ne_eq, not_true_eq_false, if_false, ite_true, reduceIte]
                rw [rB]
                simp only [ne_eq, not_true_eq_false, if_false, ite_true, reduceIte]
                exact rC

/-!
## Concrete hook scenarios (C3 and C9)

A classic-hash view at base/bias 4096: symbol `[102]` (`"f"`) resolves to
symbol index 1 (bucket entry 1, name match).  One `PT_LOAD` segment covers
the GOT.  `memC3` has a PLT region at 6000 of one 16-byte REL record;
because of the plain iterator's post-increment (C1) the walk reads the
record at 6016, which is a `JUMP_SLOT` for symbol 1 with `r_offset` 8192,
i.e. slot 12288.  `memC9` instead has a DYN region at 8192 whose *first*
record (at 8192) is an `ABS64` match for symbol 1, while the record the
buggy iterator actually visits (at 8208) matches nothing.
-/

def memC3 : Mem :=
  { ehdr := fun _ =>
      { e_ident := fun _ => 0, e_type := 0, e_machine := 0, e_version := 0
        e_phoff := 64, e_phnum := 1 }
    phdr := fun a =>
      if a = 4160 then { p_type := PT_LOAD, p_offset := 0, p_vaddr := 0, p_memsz := 65536, p_flags := 6 }
      else { p_type := 0, p_offset := 0, p_vaddr := 0, p_memsz := 0, p_flags := 0 }
    dyn := fun _ => { d_tag := 0, d_un := 0 }
    sym := fun a => if a = 280 then { st_name := 2 } else { st_name := 0 }
    byte := fun _ => 0
    word32 := fun a => if a = 1024 then 1 else 0
    word := fun _ => 0
    cstr := fun a => if a = 514 then [102] else []
    rel := fun a =>
      if a = 6016 then { r_offset := 8192, r_info := 2 ^ 32 + R_GENERIC_JUMP_SLOT }
      else { r_offset := 0, r_info := 0 }
    rela := fun _ => { r_offset := 0, r_info := 0, r_addend := 0 } }

def viewC3 : XhElf :=
  { pathname := some "x", base_addr := 4096, bias_addr := 4096, ehdr := 4096
    phdr := 4160, strtab := 512, symtab := 256, bucket_cnt := 1, bucket := 1024
    chain := 1028, relplt := 6000, relplt_sz := 16, is_use_rela := false }

def st0C3 : HookSt :=
  { mem := fun a => if a = 12288 then 42 else 0, prot := fun _ => 0 }

def c3_run1 : Option (Nat × HookSt × Option Nat) :=
  xh_elf_hook 5 memC3 viewC3 st0C3 (some [102]) 7 (some 99)

def c3_st1 : HookSt := (c3_run1.map (fun r => r.2.1)).getD st0C3

def c3_run2 : Option (Nat × HookSt × Option Nat) :=
  xh_elf_hook 5 memC3 viewC3 c3_st1 (some [102]) 7 (some 55)

/-- C3 (counterexample): the first hook rewrites the slot and stores the old
address 42; the second hook of the same symbol with the same replacement 7
returns status 0 but leaves the out-parameter cell holding its prior value
55 — it is not set to `f` (7), contradicting the claim's `old2 == f`. -/
theorem C3_second_hook_leaves_old_untouched :
    c3_run1.map (fun r => (r.1, r.2.2)) = some (0, some 42) ∧
      c3_run2.map (fun r => (r.1, r.2.2)) = some (0, some 55) := by
  constructor <;> rfl

/-- Witness for C3's amended theorem: the concrete second hook returns
status 0 with the state of the first run unchanged and the out-parameter
cell still 55. -/
theorem C3_hook_idempotent_witness : c3_run2 = some (0, c3_st1, some 55) :=
  C3_hook_idempotent 5 memC3 viewC3 st0C3 (some [102]) 7 (some 99) (some 55)
    c3_st1 (some 42) rfl

def memC9 : Mem :=
  { ehdr := fun _ =>
      { e_ident := fun _ => 0, e_type := 0, e_machine := 0, e_version := 0
        e_phoff := 64, e_phnum := 1 }
    phdr := fun a =>
      if a = 4160 then { p_type := PT_LOAD, p_offset := 0, p_vaddr := 0, p_memsz := 65536, p_flags := 6 }
      else { p_type := 0, p_offset := 0, p_vaddr := 0, p_memsz := 0, p_flags := 0 }
    dyn := fun _ => { d_tag := 0, d_un := 0 }
    sym := fun a => if a = 280 then { st_name := 2 } else { st_name := 0 }
    byte := fun _ => 0
    word32 := fun a => if a = 1024 then 1 else 0
    word := fun _ => 0
    cstr := fun a => if a = 514 then [102] else []
    rel := fun a =>
      if a = 8192 then { r_offset := 8192, r_info := 2 ^ 32 + R_GENERIC_ABS }
      else { r_offset := 0, r_info := 0 }
    rela := fun _ => { r_offset := 0, r_info := 0, r_addend := 0 } }

def viewC9 : XhElf :=
  { pathname := some "x", base_addr := 4096, bias_addr := 4096, ehdr := 4096
    phdr := 4160, strtab := 512, symtab := 256, bucket_cnt := 1, bucket := 1024
    chain := 1028, reldyn := 8192, reldyn_sz := 16, is_use_rela := false }

def st0C9 : HookSt :=
  { mem := fun a => if a = 12288 then 42 else 0, prot := fun _ => 0 }

/-- C9 (code bug evaluation): the DYN region's first record (at `reldyn`) is
an `ABS64` relocation matching the hooked symbol, but the walk — which does
proceed in PLT, DYN, ANDROID order and runs the DYN region to its end —
visits only the off-by-one pointer 8208, so the hook returns success with
the state completely untouched: the matching slot still holds 42, not the
replacement 7, and the out-parameter cell is never written. -/
theorem C9_first_dyn_record_not_rewritten :
    farMatched memC9 viewC9 1 (RelCommon.addr viewC9.reldyn) ∧
      plainYields (xh_elf_plain_reloc_iterator_init viewC9.reldyn viewC9.reldyn_sz
        viewC9.is_use_rela) = [8208] ∧
      xh_elf_hook 5 memC9 viewC9 st0C9 (some [102]) 7 (some 99) =
        some (0, st0C9, some 99) ∧
      st0C9.mem ((viewC9.bias_addr + (memC9.rel viewC9.reldyn).r_offset) % WORD_MOD) =
        42 := by
  refine ⟨by decide, ?_, by rfl, by rfl⟩
  show plainYields (xh_elf_plain_reloc_iterator_init 8192 16 false) = [8208]
  rw [plainYields_eq]
  norm_num [xh_elf_plain_reloc_iterator_next, xh_elf_plain_reloc_iterator_init, SIZEOF_REL]
  rw [plainYields_eq]
  norm_num [xh_elf_plain_reloc_iterator_next, SIZEOF_REL]

end XhElfSpec
